import Mathlib

/-!
Shallow embedding of the cross-reference matching engine of the
reglementalert repository.

The embedding covers:
* the matching helpers `normaliseCas` and `namesOverlap` (identical in the
  on-demand route and the cron route);
* the per-pair match decision made inline in both orchestrator loops
  (`pairMatch`);
* the on-demand orchestrator `POST` (three-source variant): cross-reference
  loop with in-memory dedup keys, per-item inserts, email batch and the JSON
  response (`checkRegulationsPOST`);
* the scheduled batch orchestrator `GET` of the daily-check cron route:
  per-user grouping, the email lookup map, per-user try/catch isolation,
  batch insert and per-user email (`dailyCheckGET` / `processUsersFold`).

JavaScript string primitives (`trim`, `toLowerCase`, `includes`) are
modelled by structural functions on `List Char` so that every definition is
kernel-computable.  Database reads, insert failures, thrown exceptions and
email failures are oracles passed in as explicit parameters.
-/

namespace RegAlert

/-- Model of JavaScript `String.prototype.toLowerCase` (simple case mapping,
applied characterwise). -/
def jsToLower (s : String) : String :=
  ⟨s.data.map Char.toLower⟩

/-- Characterwise trimming of leading and trailing whitespace. -/
def trimChars (l : List Char) : List Char :=
  ((l.dropWhile Char.isWhitespace).reverse.dropWhile Char.isWhitespace).reverse

/-- Model of JavaScript `String.prototype.trim`: drop surrounding whitespace. -/
def jsTrim (s : String) : String :=
  ⟨trimChars s.data⟩

/-- `charsInclude small big = true` iff `small` occurs contiguously inside
`big`; auxiliary for the model of JavaScript `String.prototype.includes`. -/
def charsInclude (small : List Char) : List Char → Bool
  | [] => small.isEmpty
  | c :: t => small.isPrefixOf (c :: t) || charsInclude small t

/-- Model of JavaScript `a.includes(b)`: `b` is a contiguous substring of `a`. -/
def strIncludes (a b : String) : Bool :=
  charsInclude b.data a.data

/-- `normaliseCas` from both route files: trim surrounding whitespace, then
lower-case. -/
def normaliseCas (cas : String) : String :=
  jsToLower (jsTrim cas)

/-- `namesOverlap` from both route files: lower-case and trim both names; if
either result has fewer than 4 characters compare for equality, otherwise
test bidirectional containment. -/
def namesOverlap (a b : String) : Bool :=
  let la := jsTrim (jsToLower a)
  let lb := jsTrim (jsToLower b)
  if la.data.length < 4 || lb.data.length < 4 then la == lb
  else strIncludes la lb || strIncludes lb la

/-- The three regulatory sources (the TS union
`'ECHA_SVHC' | 'EUR_LEX' | 'ANSM'`). -/
inductive Source where
  | ECHA_SVHC
  | EUR_LEX
  | ANSM
deriving DecidableEq

/-- The string value of a `Source` literal (what is interpolated into the
dedup key template string and stored in the `source` column). -/
def Source.label : Source → String
  | .ECHA_SVHC => "ECHA_SVHC"
  | .EUR_LEX => "EUR_LEX"
  | .ANSM => "ANSM"

/-- `NormalizedEntry` from the route files. -/
structure NormalizedEntry where
  name : String
  casNumber : Option String
  reason : Option String
  regulation : String
  url : Option String
  source : Source
deriving DecidableEq

/-- `MonitoredIngredient` row shape selected by the on-demand route. -/
structure MonitoredIngredient where
  id : String
  ingredient_name : String
  cas_number : Option String
deriving DecidableEq

/-- `ExistingAlert` row shape (`ingredient_id, substance_name, source`) read
back from the `regulatory_alerts` table. -/
structure ExistingAlert where
  ingredient_id : String
  substance_name : String
  source : String
deriving DecidableEq

/-- The row inserted into `regulatory_alerts`. -/
structure AlertRow where
  user_id : String
  ingredient_id : String
  substance_name : String
  cas_number : Option String
  source : Source
  regulation : String
  reason : Option String
  echa_url : Option String
deriving DecidableEq

/-- One element of `AlertEmailData.alerts` (the notification batch). -/
structure EmailAlert where
  substanceName : String
  casNumber : Option String
  ingredientName : String
  reason : Option String
  source : Source
deriving DecidableEq

/-- JavaScript truthiness of an optional string: `null` and `""` are falsy. -/
def isPresent : Option String → Bool
  | none => false
  | some s => !(s == "")

/-- The `casMatch` condition of the cross-reference loop:
`casBothPresent && normaliseCas(a) === normaliseCas(b)`. -/
def casMatchB (ingCas entryCas : Option String) : Bool :=
  (isPresent ingCas && isPresent entryCas) &&
    (normaliseCas (ingCas.getD "") == normaliseCas (entryCas.getD ""))

/-- Outcome of the per-pair decision in the cross-reference loop. -/
inductive MatchKind where
  | CasMatch
  | NameMatch
  | NoMatch
deriving DecidableEq

/-- The per-pair decision made inline in both orchestrator loops:
`casMatch` wins, otherwise `nameMatch = !casMatch && namesOverlap(..)`, and
a pair with neither is skipped (`NoMatch`). -/
def pairMatch (ingName : String) (ingCas : Option String) (e : NormalizedEntry) : MatchKind :=
  if casMatchB ingCas e.casNumber then .CasMatch
  else if namesOverlap ingName e.name then .NameMatch
  else .NoMatch

/-- Boolean form of "the pair is a match" (the loop does not `continue`). -/
def matchedB (ingName : String) (ingCas : Option String) (e : NormalizedEntry) : Bool :=
  !(pairMatch ingName ingCas e == MatchKind.NoMatch)

/-- The dedup key template string
`` `${ingredientId}::${entryName}::${source}` ``. -/
def dedupKey (ingId entryName : String) (src : Source) : String :=
  ingId ++ "::" ++ entryName ++ "::" ++ src.label

/-- The key an already-persisted alert contributes to the existing-key set:
`` `${a.ingredient_id}::${a.substance_name}::${a.source}` ``. -/
def existingKey (a : ExistingAlert) : String :=
  a.ingredient_id ++ "::" ++ a.substance_name ++ "::" ++ a.source

/-- The dedup key of an inserted alert row. -/
def rowKey (r : AlertRow) : String :=
  r.ingredient_id ++ "::" ++ r.substance_name ++ "::" ++ r.source.label

/-- The `regulatory_alerts` insert payload built from a matched pair. -/
def mkAlertRow (userId ingId : String) (e : NormalizedEntry) : AlertRow :=
  { user_id := userId
    ingredient_id := ingId
    substance_name := e.name
    cas_number := e.casNumber
    source := e.source
    regulation := e.regulation
    reason := e.reason
    echa_url := e.url }

/-- The email-batch element built from a matched pair. -/
def mkEmailAlert (ingName : String) (e : NormalizedEntry) : EmailAlert :=
  { substanceName := e.name
    casNumber := e.casNumber
    ingredientName := ingName
    reason := e.reason
    source := e.source }

/-- Reading an inserted row back as an existing-alert row (what the next
run's batch query returns for it; the `source` column holds the label). -/
def toExisting (r : AlertRow) : ExistingAlert :=
  { ingredient_id := r.ingredient_id
    substance_name := r.substance_name
    source := r.source.label }

/-! ## On-demand orchestrator (`POST` of the on-demand check route) -/

/-- Mutable state threaded through the on-demand cross-reference loop:
the in-memory dedup key set, the two counters, the email batch
(`newAlerts`), the rows whose insert succeeded, and the rows whose insert
was attempted at all. -/
structure RunState where
  existingKeys : List String
  alertsCreated : Nat
  duplicatesSkipped : Nat
  newAlerts : List EmailAlert
  insertedRows : List AlertRow
  attemptedRows : List AlertRow
deriving DecidableEq

/-- One iteration of the inner loop of the on-demand route: skip on
`NoMatch`; count a duplicate when the dedup key is already known; otherwise
record the key immediately, attempt the insert (success decided by the
`insertOk` oracle), and on success bump the counter and extend the email
batch. -/
def processPair (userId : String) (insertOk : AlertRow → Bool)
    (ing : MonitoredIngredient) (e : NormalizedEntry) (st : RunState) : RunState :=
  if pairMatch ing.ingredient_name ing.cas_number e = MatchKind.NoMatch then st
  else
    let key := dedupKey ing.id e.name e.source
    if st.existingKeys.contains key then
      { st with duplicatesSkipped := st.duplicatesSkipped + 1 }
    else
      let row := mkAlertRow userId ing.id e
      let st' : RunState :=
        { st with
          existingKeys := key :: st.existingKeys
          attemptedRows := st.attemptedRows ++ [row] }
      if insertOk row then
        { st' with
          alertsCreated := st'.alertsCreated + 1
          insertedRows := st'.insertedRows ++ [row]
          newAlerts := st'.newAlerts ++ [mkEmailAlert ing.ingredient_name e] }
      else st'

/-- Inner loop of the on-demand route: one ingredient against every
normalized entry, in source order. -/
def processEntries (userId : String) (insertOk : AlertRow → Bool)
    (ing : MonitoredIngredient) (entries : List NormalizedEntry) (st : RunState) : RunState :=
  entries.foldl (fun s e => processPair userId insertOk ing e s) st

/-- The full cross-reference loop of the on-demand route: every ingredient
(outer) against every normalized entry (inner). -/
def crossReference (userId : String) (insertOk : AlertRow → Bool)
    (ings : List MonitoredIngredient) (entries : List NormalizedEntry)
    (st : RunState) : RunState :=
  ings.foldl (fun s i => processEntries userId insertOk i entries s) st

/-- The fields of the on-demand route's 200 response that the core computes,
plus the observable effects (rows written, notification batch). -/
structure CheckResult where
  ingredientsChecked : Nat
  alertsCreated : Nat
  duplicatesSkipped : Nat
  emailSent : Bool
  insertedRows : List AlertRow
  attemptedRows : List AlertRow
  emailAlerts : List EmailAlert
  notifierInvoked : Bool
  emailDelivered : Bool
deriving DecidableEq

/-- The on-demand `POST` handler after authentication and fetching: runs the
cross-reference loop from the batch-fetched existing-alert keys, sends the
email iff the batch is non-empty (a failed send, `emailOk = false`, is
caught and logged), and reports `emailSent: newAlerts.length > 0`. -/
def checkRegulationsPOST (userId : String) (insertOk : AlertRow → Bool) (emailOk : Bool)
    (ings : List MonitoredIngredient) (entries : List NormalizedEntry)
    (existingAlerts : List ExistingAlert) : CheckResult :=
  let st0 : RunState :=
    { existingKeys := existingAlerts.map existingKey
      alertsCreated := 0
      duplicatesSkipped := 0
      newAlerts := []
      insertedRows := []
      attemptedRows := [] }
  let st := crossReference userId insertOk ings entries st0
  { ingredientsChecked := ings.length
    alertsCreated := st.alertsCreated
    duplicatesSkipped := st.duplicatesSkipped
    emailSent := decide (0 < st.newAlerts.length)
    insertedRows := st.insertedRows
    attemptedRows := st.attemptedRows
    emailAlerts := st.newAlerts
    notifierInvoked := decide (0 < st.newAlerts.length)
    emailDelivered := decide (0 < st.newAlerts.length) && emailOk }

/-! ## Normalizer -/

/-- Element of the list returned by the SVHC source provider. -/
structure SvhcSubstance where
  name : String
  casNumber : Option String
  reason : Option String
  echaUrl : Option String
deriving DecidableEq

/-- Element of the lists returned by the EUR-Lex and ANSM source providers
(already carrying `regulation` and `url`). -/
structure SourceEntry where
  name : String
  casNumber : Option String
  reason : Option String
  regulation : String
  url : Option String
deriving DecidableEq

/-- The block of normalized entries contributed by one provider. -/
def providerBlock (svhc : List SvhcSubstance) (eurlex ansm : List SourceEntry) :
    Source → List NormalizedEntry
  | .ECHA_SVHC =>
    svhc.map fun s =>
      { name := s.name
        casNumber := s.casNumber
        reason := s.reason
        regulation := "REACH Candidate List (SVHC)"
        url := s.echaUrl
        source := .ECHA_SVHC }
  | .EUR_LEX =>
    eurlex.map fun e =>
      { name := e.name, casNumber := e.casNumber, reason := e.reason
        regulation := e.regulation, url := e.url, source := .EUR_LEX }
  | .ANSM =>
    ansm.map fun e =>
      { name := e.name, casNumber := e.casNumber, reason := e.reason
        regulation := e.regulation, url := e.url, source := .ANSM }

/-- The `allEntries` concatenation of both routes: ECHA block, then EUR-Lex
block, then ANSM block. -/
def normalizeSources (svhc : List SvhcSubstance) (eurlex ansm : List SourceEntry) :
    List NormalizedEntry :=
  providerBlock svhc eurlex ansm .ECHA_SVHC
    ++ providerBlock svhc eurlex ansm .EUR_LEX
    ++ providerBlock svhc eurlex ansm .ANSM

/-- The provider order used by the source text. -/
def sourceOrder : List Source := [.ECHA_SVHC, .EUR_LEX, .ANSM]

/-- The normalized entry list obtained by concatenating the provider blocks
in an arbitrary order `ord`. -/
def normalizeInOrder (svhc : List SvhcSubstance) (eurlex ansm : List SourceEntry)
    (ord : List Source) : List NormalizedEntry :=
  (ord.map (providerBlock svhc eurlex ansm)).flatten

/-- Number of matching (ingredient, entry) pairs for one ingredient. -/
def countMatched (ing : MonitoredIngredient) (entries : List NormalizedEntry) : Nat :=
  entries.countP (fun e => matchedB ing.ingredient_name ing.cas_number e)

/-- Total number of matching (ingredient, entry) pairs of a run. -/
def matchCount (ings : List MonitoredIngredient) (entries : List NormalizedEntry) : Nat :=
  (ings.map (fun i => countMatched i entries)).sum

/-! ## Scheduled batch orchestrator (`GET` of the cron daily-check route) -/

/-- Ingredient row shape selected by the cron route (with the owning user
and its profile's company name joined in). -/
structure IngredientRow where
  id : String
  ingredient_name : String
  cas_number : Option String
  user_id : String
  company_name : Option String
deriving DecidableEq

/-- One account returned by the admin user-listing call. -/
structure AuthUser where
  id : String
  email : Option String
deriving DecidableEq

/-- Lookup in the email map `new Map(users.map(u => [u.id, u.email ?? '']))`:
a later entry with the same id overwrites an earlier one, so the lookup
finds the last matching entry; a missing email is stored as `""`. -/
def emailMapGet (users : List AuthUser) (uid : String) : Option String :=
  (users.reverse.find? (fun u => u.id == uid)).map (fun u => u.email.getD "")

/-- JavaScript falsiness of the looked-up email (`!userEmail`): user id
absent from the map, or mapped to the empty string. -/
def emailMissing : Option String → Bool
  | none => true
  | some e => e == ""

/-- Grouping of ingredient rows by `user_id` with a JS `Map`: first
appearance fixes the tenant's position, later rows are appended to the
tenant's list. -/
def insertGrouped (acc : List (String × List IngredientRow)) (row : IngredientRow) :
    List (String × List IngredientRow) :=
  if acc.any (fun p => p.1 == row.user_id) then
    acc.map (fun p => if p.1 == row.user_id then (p.1, p.2 ++ [row]) else p)
  else acc ++ [(row.user_id, [row])]

/-- The `byUser` map of the cron route, as an ordered association list. -/
def groupByUser (rows : List IngredientRow) : List (String × List IngredientRow) :=
  rows.foldl insertGrouped []

/-- State threaded through one tenant's cross-reference loop in the cron
route: the dedup key set, the rows collected for the batch insert, and the
email batch (pushed before any insert happens). -/
structure BatchState where
  existingKeys : List String
  rowsToInsert : List AlertRow
  newAlerts : List EmailAlert
deriving DecidableEq

/-- One iteration of the cron route's inner loop: skip on `NoMatch` or on a
known dedup key (silently — no counter), otherwise record the key and
collect both the insert row and the email-batch element. -/
def batchPair (userId : String) (ing : IngredientRow) (e : NormalizedEntry)
    (st : BatchState) : BatchState :=
  if pairMatch ing.ingredient_name ing.cas_number e = MatchKind.NoMatch then st
  else
    let key := dedupKey ing.id e.name e.source
    if st.existingKeys.contains key then st
    else
      { existingKeys := key :: st.existingKeys
        rowsToInsert := st.rowsToInsert ++ [mkAlertRow userId ing.id e]
        newAlerts := st.newAlerts ++ [mkEmailAlert ing.ingredient_name e] }

/-- Inner loop of the cron route: one ingredient against every entry. -/
def batchEntries (userId : String) (ing : IngredientRow)
    (entries : List NormalizedEntry) (st : BatchState) : BatchState :=
  entries.foldl (fun s e => batchPair userId ing e s) st

/-- One tenant's full cross-reference loop in the cron route. -/
def batchCrossRef (userId : String) (ings : List IngredientRow)
    (entries : List NormalizedEntry) (st : BatchState) : BatchState :=
  ings.foldl (fun s i => batchEntries userId i entries s) st

/-- External collaborators of the cron route, as oracles: the user-listing
result, the per-tenant existing-alert read, whether an exception is thrown
while processing a tenant (modelled at the earliest point inside the
per-tenant `try`, the existing-alert read), whether the tenant's batch
insert succeeds, and whether the tenant's email send succeeds. -/
structure BatchEnv where
  users : List AuthUser
  existingAlertsFor : String → List ExistingAlert
  tenantThrows : String → Bool
  insertOkFor : String → Bool
  emailOkFor : String → Bool

/-- Aggregate result of the cron route: the counters of its 200 response
plus, per processed tenant, the rows durably written and the notification
batch the Notifier was invoked with. -/
structure BatchAcc where
  usersChecked : Nat
  alertsCreated : Nat
  emailsSent : Nat
  tenantRows : List (String × List AlertRow)
  emailBatches : List (String × List EmailAlert)
deriving DecidableEq

/-- The empty accumulator the cron route starts from. -/
def emptyBatchAcc : BatchAcc :=
  { usersChecked := 0, alertsCreated := 0, emailsSent := 0
    tenantRows := [], emailBatches := [] }

/-- Processing of one tenant group in the cron route: skip silently when the
email lookup is falsy; a thrown exception is caught at the tenant boundary
and only logged; otherwise cross-reference, batch-insert (an insert error is
only logged: nothing is written, but the loop continues), count the tenant
as checked, and send one email iff the email batch is non-empty (pushed
during matching, before the insert). -/
def processUserGroup (entries : List NormalizedEntry) (env : BatchEnv)
    (acc : BatchAcc) (g : String × List IngredientRow) : BatchAcc :=
  let userId := g.1
  if emailMissing (emailMapGet env.users userId) then acc
  else if env.tenantThrows userId then acc
  else
    let existing := env.existingAlertsFor userId
    let st0 : BatchState :=
      { existingKeys := existing.map existingKey, rowsToInsert := [], newAlerts := [] }
    let st := batchCrossRef userId g.2 entries st0
    let insertHappened := decide (0 < st.rowsToInsert.length) && env.insertOkFor userId
    let insertedRows := if insertHappened then st.rowsToInsert else []
    let createdCount := if insertHappened then st.rowsToInsert.length else 0
    let notify := decide (0 < st.newAlerts.length)
    let sentCount := if notify && env.emailOkFor userId then 1 else 0
    { usersChecked := acc.usersChecked + 1
      alertsCreated := acc.alertsCreated + createdCount
      emailsSent := acc.emailsSent + sentCount
      tenantRows := acc.tenantRows ++ [(userId, insertedRows)]
      emailBatches := acc.emailBatches ++ (if notify then [(userId, st.newAlerts)] else []) }

/-- The per-user loop of the cron route. -/
def processUsersFold (entries : List NormalizedEntry) (env : BatchEnv)
    (groups : List (String × List IngredientRow)) (acc : BatchAcc) : BatchAcc :=
  groups.foldl (processUserGroup entries env) acc

/-- The cron `GET` handler after authentication: normalize the three
sources once, group all ingredients by user, and process every tenant
group. -/
def dailyCheckGET (svhc : List SvhcSubstance) (eurlex ansm : List SourceEntry)
    (allIngredients : List IngredientRow) (env : BatchEnv) : BatchAcc :=
  processUsersFold (normalizeSources svhc eurlex ansm) env
    (groupByUser allIngredients) emptyBatchAcc

/-! ## Auxiliary definitions used by the statements -/

/-- The spec's name-comparison rule, stated from its words alone: lower-case
and trim both names; if either normalized name has fewer than 4 characters
the pair matches only on full equality; otherwise it matches exactly when
either normalized name is a contiguous substring of the other. -/
def SpecNamesMatch (a b : String) : Prop :=
  let na := jsTrim (jsToLower a)
  let nb := jsTrim (jsToLower b)
  if na.data.length < 4 ∨ nb.data.length < 4 then na = nb
  else (∃ p s, p ++ na.data ++ s = nb.data) ∨ (∃ p s, p ++ nb.data ++ s = na.data)

/-- The dedup key of an (ingredient, entry) pair. -/
def keyOf (i : MonitoredIngredient) (e : NormalizedEntry) : String :=
  dedupKey i.id e.name e.source

/-- The last character of every dedup key built with a given source tag. -/
def sourceLastChar : Source → Char
  | .ECHA_SVHC => 'C'
  | .EUR_LEX => 'X'
  | .ANSM => 'M'

/-- Concrete fixture for witnesses: a raw "Dioxide" SVHC substance. -/
def fixtureSvhc : SvhcSubstance :=
  { name := "Dioxide", casNumber := none, reason := none, echaUrl := none }

/-- Concrete fixture for witnesses: a "Dioxide" entry from the SVHC source. -/
def fixtureEntry : NormalizedEntry :=
  { name := "Dioxide", casNumber := none, reason := none, regulation := "R"
    url := none, source := .ECHA_SVHC }

/-- Concrete fixture: the account listing with tenants "A" and "B". -/
def fixtureUsersAB : List AuthUser :=
  [{ id := "A", email := some "a@example.com" },
   { id := "B", email := some "b@example.com" }]

/-- Concrete fixture: a batch environment over `fixtureUsersAB` in which
processing tenant "A" throws an exception. -/
def fixtureEnvThrowsA : BatchEnv :=
  { users := fixtureUsersAB
    existingAlertsFor := fun _ => []
    tenantThrows := fun u => u == "A"
    insertOkFor := fun _ => true
    emailOkFor := fun _ => true }

/-- Concrete fixture: the same batch environment with no exception. -/
def fixtureEnvNoThrow : BatchEnv :=
  { users := fixtureUsersAB
    existingAlertsFor := fun _ => []
    tenantThrows := fun _ => false
    insertOkFor := fun _ => true
    emailOkFor := fun _ => true }

/-- Concrete fixture: tenant groups for "A" and "B", one matching
ingredient each. -/
def fixtureGroupsAB : List (String × List IngredientRow) :=
  [("A", [{ id := "iA", ingredient_name := "Titanium dioxide", cas_number := none
            user_id := "A", company_name := none }]),
   ("B", [{ id := "iB", ingredient_name := "Titanium dioxide", cas_number := none
            user_id := "B", company_name := none }])]

/-- Concrete fixture: an environment whose account listing has only
tenant "C". -/
def fixtureEnvOnlyC : BatchEnv :=
  { users := [{ id := "C", email := some "c@example.com" }]
    existingAlertsFor := fun _ => []
    tenantThrows := fun _ => false
    insertOkFor := fun _ => true
    emailOkFor := fun _ => true }

/-- Two key lists that agree as sets (the JS `Set` is membership-only). -/
def KeysSetEq (k1 k2 : List String) : Prop :=
  ∀ s : String, (s ∈ k1) ↔ (s ∈ k2)

/-- States of the on-demand loop that agree on the dedup key set (as a set)
and on the multiset of rows durably written. -/
structure StEquiv (s1 s2 : RunState) : Prop where
  keys : KeysSetEq s1.existingKeys s2.existingKeys
  rows : s1.insertedRows.Perm s2.insertedRows

/-- Two blocks of normalized entries drawn from different providers: no
entry of one carries the source tag of an entry of the other. -/
def BlockDisj (b1 b2 : List NormalizedEntry) : Prop :=
  ∀ x ∈ b1, ∀ y ∈ b2, x.source ≠ y.source

/-! ## Helper lemmas -/

lemma contains_iff (l : List String) (k : String) : l.contains k = true ↔ k ∈ l := by
  rw [show l.contains k = l.elem k from rfl, List.elem_eq_mem]
  simp

lemma isPrefixOf_iff_exists (s l : List Char) : s.isPrefixOf l = true ↔ ∃ t, s ++ t = l := by
  rw [List.isPrefixOf_iff_prefix]
  rfl

lemma charsInclude_iff (small big : List Char) :
    charsInclude small big = true ↔ ∃ p s, p ++ small ++ s = big := by
  induction big with
  | nil =>
    constructor
    · intro h
      have hs : small = [] := by simpa [charsInclude, List.isEmpty_iff] using h
      exact ⟨[], [], by simp [hs]⟩
    · rintro ⟨p, s, hp⟩
      have := List.append_eq_nil.mp hp
      have hsm : small = [] := (List.append_eq_nil.mp this.1).2
      simp [charsInclude, List.isEmpty_iff, hsm]
  | cons c t ih =>
    simp only [charsInclude, Bool.or_eq_true, ih, isPrefixOf_iff_exists]
    constructor
    · rintro (⟨s, hs⟩ | ⟨p, s, rfl⟩)
      · exact ⟨[], s, by simpa using hs⟩
      · exact ⟨c :: p, s, rfl⟩
    · rintro ⟨p, s, hp⟩
      cases p with
      | nil =>
        left
        exact ⟨s, by simpa using hp⟩
      | cons x p' =>
        right
        have h1 : x = c := by injection hp
        have h2 : p' ++ small ++ s = t := by injection hp
        exact ⟨p', s, h2⟩

lemma beq_eq_false_of_ne {s t : String} (h : s ≠ t) : (s == t) = false := by
  simpa using h

/-! ## C1: CAS mismatch and the name fallback -/

/-- C1, claim as stated, refuted at the spec's own example: with ingredient
name "Lead" / CAS "111-11-1" against entry name "Lead" / CAS "7439-92-1"
(both CAS present and different), the matcher does NOT return `NoMatch`: the
name comparison is still performed and yields `NameMatch`. -/
theorem c1_counterexample :
    pairMatch "Lead" (some "111-11-1")
        { name := "Lead", casNumber := some "7439-92-1", reason := none
          regulation := "REACH Candidate List (SVHC)", url := none
          source := Source.ECHA_SVHC }
      = MatchKind.NameMatch ∧
    ¬ (pairMatch "Lead" (some "111-11-1")
        { name := "Lead", casNumber := some "7439-92-1", reason := none
          regulation := "REACH Candidate List (SVHC)", url := none
          source := Source.ECHA_SVHC }
      = MatchKind.NoMatch) := by
  decide

/-- C1 amended: when both CAS numbers are present (non-empty) and differ
after normalisation, the pair falls through to name comparison — the result
is `NameMatch` exactly when the names overlap, `NoMatch` otherwise. -/
theorem c1_amended (ingName cIng cEnt : String) (e : NormalizedEntry)
    (hc1 : cIng ≠ "") (hc2 : cEnt ≠ "") (he : e.casNumber = some cEnt)
    (hne : normaliseCas cIng ≠ normaliseCas cEnt) :
    pairMatch ingName (some cIng) e =
      if namesOverlap ingName e.name then MatchKind.NameMatch else MatchKind.NoMatch := by
  have h1 := beq_eq_false_of_ne hc1
  have h2 := beq_eq_false_of_ne hc2
  have h3 := beq_eq_false_of_ne hne
  simp [pairMatch, casMatchB, isPresent, he, h1, h2, h3]

/-- Witness for `c1_amended` at the spec's example pair. -/
theorem c1_amended_witness :
    (("111-11-1" : String) ≠ "" ∧ ("7439-92-1" : String) ≠ "" ∧
      ({ name := "Lead", casNumber := some "7439-92-1", reason := none
         regulation := "REACH Candidate List (SVHC)", url := none
         source := Source.ECHA_SVHC } : NormalizedEntry).casNumber = some "7439-92-1" ∧
      normaliseCas "111-11-1" ≠ normaliseCas "7439-92-1") ∧
    pairMatch "Lead" (some "111-11-1")
        { name := "Lead", casNumber := some "7439-92-1", reason := none
          regulation := "REACH Candidate List (SVHC)", url := none
          source := Source.ECHA_SVHC }
      = if namesOverlap "Lead"
            ({ name := "Lead", casNumber := some "7439-92-1", reason := none
               regulation := "REACH Candidate List (SVHC)", url := none
               source := Source.ECHA_SVHC } : NormalizedEntry).name
          then MatchKind.NameMatch else MatchKind.NoMatch :=
  ⟨⟨by decide, by decide, rfl, by decide⟩,
    c1_amended "Lead" "111-11-1" "7439-92-1" _ (by decide) (by decide) rfl (by decide)⟩

/-! ## C5: CAS priority -/

/-- C5: whenever both CAS numbers are present (non-empty) and equal after
normalisation (trim, then lower-case), the matcher returns `CasMatch`, for
every pair of names. -/
theorem c5_cas_priority (ingName cIng cEnt : String) (e : NormalizedEntry)
    (hc1 : cIng ≠ "") (hc2 : cEnt ≠ "") (he : e.casNumber = some cEnt)
    (heq : normaliseCas cIng = normaliseCas cEnt) :
    pairMatch ingName (some cIng) e = MatchKind.CasMatch := by
  have h1 := beq_eq_false_of_ne hc1
  have h2 := beq_eq_false_of_ne hc2
  simp [pairMatch, casMatchB, isPresent, he, h1, h2, heq]

/-- Witness for `c5_cas_priority` at the spec's example: ingredient
"Stuff A" / CAS "7439-92-1" against entry "Lead" / CAS "7439-92-1". -/
theorem c5_cas_priority_witness :
    (("7439-92-1" : String) ≠ "" ∧ ("7439-92-1" : String) ≠ "" ∧
      ({ name := "Lead", casNumber := some "7439-92-1", reason := none
         regulation := "REACH Candidate List (SVHC)", url := none
         source := Source.ECHA_SVHC } : NormalizedEntry).casNumber = some "7439-92-1" ∧
      normaliseCas "7439-92-1" = normaliseCas "7439-92-1") ∧
    pairMatch "Stuff A" (some "7439-92-1")
        { name := "Lead", casNumber := some "7439-92-1", reason := none
          regulation := "REACH Candidate List (SVHC)", url := none
          source := Source.ECHA_SVHC }
      = MatchKind.CasMatch :=
  ⟨⟨by decide, by decide, rfl, rfl⟩,
    c5_cas_priority "Stuff A" "7439-92-1" "7439-92-1" _ (by decide) (by decide) rfl rfl⟩

/-! ## C6: the name-comparison rule -/

/-- C6: `namesOverlap` implements exactly the spec's rule — lower-case and
trim both names, full equality when either normalized name is shorter than
4 characters, bidirectional substring containment otherwise; in particular
"ABC" vs "ABCDEF" does not match while "Titanium dioxide" vs "Dioxide"
does. -/
theorem c6_name_rule :
    (∀ a b : String, namesOverlap a b = true ↔ SpecNamesMatch a b)
    ∧ namesOverlap "ABC" "ABCDEF" = false
    ∧ namesOverlap "Titanium dioxide" "Dioxide" = true := by
  refine ⟨fun a b => ?_, by decide, by decide⟩
  simp only [namesOverlap, SpecNamesMatch, strIncludes]
  by_cases h : (jsTrim (jsToLower a)).data.length < 4 ∨ (jsTrim (jsToLower b)).data.length < 4
  · rw [if_pos h, if_pos (by simpa using h)]
    exact beq_iff_eq
  · rw [if_neg h, if_neg (by simpa using h)]
    simp only [Bool.or_eq_true, charsInclude_iff]
    exact or_comm

/-! ## C7: the `emailSent` response field -/

/-- C7, claim as stated, refuted: a run that persists one alert but whose
email send fails (`emailOk = false`) still reports `emailSent = true`. -/
theorem c7_counterexample :
    (checkRegulationsPOST "u" (fun _ => true) false
        [{ id := "i1", ingredient_name := "Titanium dioxide", cas_number := none }]
        [{ name := "Dioxide", casNumber := none, reason := none, regulation := "R"
           url := none, source := Source.ECHA_SVHC }]
        []).emailSent = true ∧
    (checkRegulationsPOST "u" (fun _ => true) false
        [{ id := "i1", ingredient_name := "Titanium dioxide", cas_number := none }]
        [{ name := "Dioxide", casNumber := none, reason := none, regulation := "R"
           url := none, source := Source.ECHA_SVHC }]
        []).notifierInvoked = true ∧
    (checkRegulationsPOST "u" (fun _ => true) false
        [{ id := "i1", ingredient_name := "Titanium dioxide", cas_number := none }]
        [{ name := "Dioxide", casNumber := none, reason := none, regulation := "R"
           url := none, source := Source.ECHA_SVHC }]
        []).emailDelivered = false := by
  decide

lemma newAlertsLen_pp (u : String) (ok : AlertRow → Bool) (i : MonitoredIngredient)
    (e : NormalizedEntry) (st : RunState) (h : st.newAlerts.length = st.alertsCreated) :
    (processPair u ok i e st).newAlerts.length = (processPair u ok i e st).alertsCreated := by
  simp only [processPair]
  split_ifs <;> simp [h]

lemma newAlertsLen_entries (u : String) (ok : AlertRow → Bool) (i : MonitoredIngredient)
    (entries : List NormalizedEntry) (st : RunState)
    (h : st.newAlerts.length = st.alertsCreated) :
    (processEntries u ok i entries st).newAlerts.length
      = (processEntries u ok i entries st).alertsCreated := by
  induction entries generalizing st with
  | nil => exact h
  | cons e es ih => exact ih _ (newAlertsLen_pp u ok i e st h)

lemma newAlertsLen_crossReference (u : String) (ok : AlertRow → Bool)
    (ings : List MonitoredIngredient) (entries : List NormalizedEntry) (st : RunState)
    (h : st.newAlerts.length = st.alertsCreated) :
    (crossReference u ok ings entries st).newAlerts.length
      = (crossReference u ok ings entries st).alertsCreated := by
  induction ings generalizing st with
  | nil => exact h
  | cons i is ih => exact ih _ (newAlertsLen_entries u ok i entries st h)

/-- C7 amended: `emailSent` reports whether the Notifier was invoked — it is
true exactly when at least one alert was newly persisted this run
(`alertsCreated > 0`) — and it is independent of whether the notification
actually succeeded. -/
theorem c7_amended (userId : String) (insertOk : AlertRow → Bool) (emailOk emailOk' : Bool)
    (ings : List MonitoredIngredient) (entries : List NormalizedEntry)
    (existing : List ExistingAlert) :
    (checkRegulationsPOST userId insertOk emailOk ings entries existing).emailSent
      = decide (0 < (checkRegulationsPOST userId insertOk emailOk ings entries
          existing).alertsCreated)
    ∧ (checkRegulationsPOST userId insertOk emailOk ings entries existing).emailSent
      = (checkRegulationsPOST userId insertOk emailOk' ings entries existing).emailSent := by
  refine ⟨?_, rfl⟩
  have h := newAlertsLen_crossReference userId insertOk ings entries
    { existingKeys := existing.map existingKey, alertsCreated := 0, duplicatesSkipped := 0
      newAlerts := [], insertedRows := [], attemptedRows := [] } rfl
  simp only [checkRegulationsPOST, h]

/-! ## C4: in-run deduplication -/

lemma mem_keys_pp (u : String) (ok : AlertRow → Bool) (i : MonitoredIngredient)
    (e : NormalizedEntry) (st : RunState) (k : String) (h : k ∈ st.existingKeys) :
    k ∈ (processPair u ok i e st).existingKeys := by
  simp only [processPair]
  split_ifs <;> simp [h]

lemma mem_keys_entries (u : String) (ok : AlertRow → Bool) (i : MonitoredIngredient)
    (entries : List NormalizedEntry) (st : RunState) (k : String)
    (h : k ∈ st.existingKeys) :
    k ∈ (processEntries u ok i entries st).existingKeys := by
  induction entries generalizing st with
  | nil => exact h
  | cons e es ih => exact ih _ (mem_keys_pp u ok i e st k h)

lemma mem_keys_crossReference (u : String) (ok : AlertRow → Bool)
    (ings : List MonitoredIngredient) (entries : List NormalizedEntry) (st : RunState)
    (k : String) (h : k ∈ st.existingKeys) :
    k ∈ (crossReference u ok ings entries st).existingKeys := by
  induction ings generalizing st with
  | nil => exact h
  | cons i is ih => exact ih _ (mem_keys_entries u ok i entries st k h)

lemma accepted_nodup_aux (key : String) (keys : List String) (rows : List AlertRow)
    (row : AlertRow)
    (h1 : (rows.map rowKey).Nodup)
    (h2 : ∀ r ∈ rows, rowKey r ∈ keys)
    (hc : ¬ keys.contains key = true)
    (hrowkey : rowKey row = key) :
    ((rows ++ [row]).map rowKey).Nodup ∧ ∀ r ∈ rows ++ [row], rowKey r ∈ key :: keys := by
  constructor
  · simp only [List.map_append, List.map_cons, List.map_nil]
    rw [List.nodup_append]
    refine ⟨h1, List.nodup_singleton _, ?_⟩
    intro k hk hk'
    simp at hk'
    obtain ⟨r, hr, hrk⟩ := List.mem_map.mp hk
    apply hc
    rw [contains_iff]
    have hkr : rowKey r = key := by rw [hrk, hk', hrowkey]
    exact hkr ▸ h2 r hr
  · intro r hr
    rcases List.mem_append.mp hr with hr' | hr'
    · exact List.mem_cons_of_mem _ (h2 r hr')
    · simp at hr'
      subst hr'
      rw [hrowkey]
      exact List.mem_cons_self _ _

lemma c4_inv_pp (u : String) (ok : AlertRow → Bool) (i : MonitoredIngredient)
    (e : NormalizedEntry) (st : RunState)
    (h1 : (st.attemptedRows.map rowKey).Nodup)
    (h2 : ∀ r ∈ st.attemptedRows, rowKey r ∈ st.existingKeys) :
    ((processPair u ok i e st).attemptedRows.map rowKey).Nodup
    ∧ ∀ r ∈ (processPair u ok i e st).attemptedRows,
        rowKey r ∈ (processPair u ok i e st).existingKeys := by
  simp only [processPair]
  split_ifs with hm hc hok
  · exact ⟨h1, h2⟩
  · exact ⟨h1, h2⟩
  · exact accepted_nodup_aux _ _ _ _ h1 h2 hc rfl
  · exact accepted_nodup_aux _ _ _ _ h1 h2 hc rfl

lemma c4_inv_entries (u : String) (ok : AlertRow → Bool) (i : MonitoredIngredient)
    (entries : List NormalizedEntry) (st : RunState)
    (h1 : (st.attemptedRows.map rowKey).Nodup)
    (h2 : ∀ r ∈ st.attemptedRows, rowKey r ∈ st.existingKeys) :
    ((processEntries u ok i entries st).attemptedRows.map rowKey).Nodup
    ∧ ∀ r ∈ (processEntries u ok i entries st).attemptedRows,
        rowKey r ∈ (processEntries u ok i entries st).existingKeys := by
  induction entries generalizing st with
  | nil => exact ⟨h1, h2⟩
  | cons e es ih =>
    obtain ⟨g1, g2⟩ := c4_inv_pp u ok i e st h1 h2
    exact ih _ g1 g2

lemma c4_inv_crossReference (u : String) (ok : AlertRow → Bool)
    (ings : List MonitoredIngredient) (entries : List NormalizedEntry) (st : RunState)
    (h1 : (st.attemptedRows.map rowKey).Nodup)
    (h2 : ∀ r ∈ st.attemptedRows, rowKey r ∈ st.existingKeys) :
    ((crossReference u ok ings entries st).attemptedRows.map rowKey).Nodup
    ∧ ∀ r ∈ (crossReference u ok ings entries st).attemptedRows,
        rowKey r ∈ (crossReference u ok ings entries st).existingKeys := by
  induction ings generalizing st with
  | nil => exact ⟨h1, h2⟩
  | cons i is ih =>
    obtain ⟨g1, g2⟩ := c4_inv_entries u ok i entries st h1 h2
    exact ih _ g1 g2

lemma count_pp (u : String) (ok : AlertRow → Bool) (i : MonitoredIngredient)
    (e : NormalizedEntry) (st : RunState) :
    (processPair u ok i e st).duplicatesSkipped
        + (processPair u ok i e st).attemptedRows.length
      = st.duplicatesSkipped + st.attemptedRows.length
        + (if matchedB i.ingredient_name i.cas_number e = true then 1 else 0) := by
  by_cases hm : pairMatch i.ingredient_name i.cas_number e = MatchKind.NoMatch
  · simp [processPair, hm, matchedB]
  · have hmB : matchedB i.ingredient_name i.cas_number e = true := by
      simp [matchedB, hm]
    simp only [processPair, if_neg hm, hmB, if_true]
    split_ifs with hc hok <;> simp <;> omega

lemma count_entries (u : String) (ok : AlertRow → Bool) (i : MonitoredIngredient)
    (entries : List NormalizedEntry) (st : RunState) :
    (processEntries u ok i entries st).duplicatesSkipped
        + (processEntries u ok i entries st).attemptedRows.length
      = st.duplicatesSkipped + st.attemptedRows.length + countMatched i entries := by
  induction entries generalizing st with
  | nil => simp [processEntries, countMatched]
  | cons e es ih =>
    have h1 := count_pp u ok i e st
    have h2 := ih (processPair u ok i e st)
    simp only [processEntries, List.foldl_cons] at h2 ⊢
    rw [countMatched, List.countP_cons]
    rw [countMatched] at h2
    omega

lemma count_crossReference (u : String) (ok : AlertRow → Bool)
    (ings : List MonitoredIngredient) (entries : List NormalizedEntry) (st : RunState) :
    (crossReference u ok ings entries st).duplicatesSkipped
        + (crossReference u ok ings entries st).attemptedRows.length
      = st.duplicatesSkipped + st.attemptedRows.length + matchCount ings entries := by
  induction ings generalizing st with
  | nil => simp [crossReference, matchCount]
  | cons i is ih =>
    have h1 := count_entries u ok i entries st
    have h2 := ih (processEntries u ok i entries st)
    simp only [crossReference, List.foldl_cons] at h2 ⊢
    rw [matchCount, List.map_cons, List.sum_cons]
    rw [matchCount] at h2
    omega

lemma c4_inv_bp (u : String) (i : IngredientRow) (e : NormalizedEntry) (st : BatchState)
    (h1 : (st.rowsToInsert.map rowKey).Nodup)
    (h2 : ∀ r ∈ st.rowsToInsert, rowKey r ∈ st.existingKeys) :
    ((batchPair u i e st).rowsToInsert.map rowKey).Nodup
    ∧ ∀ r ∈ (batchPair u i e st).rowsToInsert, rowKey r ∈ (batchPair u i e st).existingKeys := by
  simp only [batchPair]
  split_ifs with hm hc
  · exact ⟨h1, h2⟩
  · exact ⟨h1, h2⟩
  · exact accepted_nodup_aux _ _ _ _ h1 h2 hc rfl

lemma c4_inv_bentries (u : String) (i : IngredientRow)
    (entries : List NormalizedEntry) (st : BatchState)
    (h1 : (st.rowsToInsert.map rowKey).Nodup)
    (h2 : ∀ r ∈ st.rowsToInsert, rowKey r ∈ st.existingKeys) :
    ((batchEntries u i entries st).rowsToInsert.map rowKey).Nodup
    ∧ ∀ r ∈ (batchEntries u i entries st).rowsToInsert,
        rowKey r ∈ (batchEntries u i entries st).existingKeys := by
  induction entries generalizing st with
  | nil => exact ⟨h1, h2⟩
  | cons e es ih =>
    obtain ⟨g1, g2⟩ := c4_inv_bp u i e st h1 h2
    exact ih _ g1 g2

lemma c4_inv_bcross (u : String) (ings : List IngredientRow)
    (entries : List NormalizedEntry) (st : BatchState)
    (h1 : (st.rowsToInsert.map rowKey).Nodup)
    (h2 : ∀ r ∈ st.rowsToInsert, rowKey r ∈ st.existingKeys) :
    ((batchCrossRef u ings entries st).rowsToInsert.map rowKey).Nodup := by
  induction ings generalizing st with
  | nil => exact h1
  | cons i is ih =>
    obtain ⟨g1, g2⟩ := c4_inv_bentries u i entries st h1 h2
    exact ih _ g1 g2

/-- C4: within a single run, at most one alert is accepted per dedup key —
the accepted (insert-attempted) rows of the on-demand run have pairwise
distinct dedup keys, and every matched pair beyond those is counted as a
duplicate skipped (`duplicatesSkipped + accepted = total matches`); the
same key-distinctness holds for the rows collected by one tenant of the
batch run.  The initial alert state is arbitrary, including empty. -/
theorem c4_in_run_dedup (userId : String) (insertOk : AlertRow → Bool) (emailOk : Bool)
    (ings : List MonitoredIngredient) (entries : List NormalizedEntry)
    (existingAlerts : List ExistingAlert)
    (uB : String) (ingsB : List IngredientRow) (entriesB : List NormalizedEntry)
    (existingB : List ExistingAlert) :
    (((checkRegulationsPOST userId insertOk emailOk ings entries
          existingAlerts).attemptedRows.map rowKey).Nodup
      ∧ (checkRegulationsPOST userId insertOk emailOk ings entries
            existingAlerts).duplicatesSkipped
          + (checkRegulationsPOST userId insertOk emailOk ings entries
              existingAlerts).attemptedRows.length
        = matchCount ings entries)
    ∧ ((batchCrossRef uB ingsB entriesB
          { existingKeys := existingB.map existingKey, rowsToInsert := []
            newAlerts := [] }).rowsToInsert.map rowKey).Nodup := by
  refine ⟨⟨?_, ?_⟩, ?_⟩
  · exact (c4_inv_crossReference userId insertOk ings entries _
      (by simp) (by simp)).1
  · have h := count_crossReference userId insertOk ings entries
      { existingKeys := existingAlerts.map existingKey, alertsCreated := 0
        duplicatesSkipped := 0, newAlerts := [], insertedRows := [], attemptedRows := [] }
    simpa [checkRegulationsPOST] using h
  · exact c4_inv_bcross uB ingsB entriesB _ (by simp) (by simp)

/-! ## C3: idempotence across repeated runs -/

lemma existingKey_toExisting (r : AlertRow) : existingKey (toExisting r) = rowKey r := rfl

lemma matchedKey_pp (u : String) (ok : AlertRow → Bool) (i : MonitoredIngredient)
    (e : NormalizedEntry) (st : RunState)
    (hm : matchedB i.ingredient_name i.cas_number e = true) :
    keyOf i e ∈ (processPair u ok i e st).existingKeys := by
  have hm' : ¬ pairMatch i.ingredient_name i.cas_number e = MatchKind.NoMatch := by
    simpa [matchedB] using hm
  simp only [processPair, if_neg hm']
  split_ifs with hc
  · exact (contains_iff _ _).mp hc
  all_goals exact List.mem_cons_self _ _

lemma matchedKey_entries (u : String) (ok : AlertRow → Bool) (i : MonitoredIngredient)
    (entries : List NormalizedEntry) (st : RunState) :
    ∀ e ∈ entries, matchedB i.ingredient_name i.cas_number e = true →
      keyOf i e ∈ (processEntries u ok i entries st).existingKeys := by
  induction entries generalizing st with
  | nil => intro e he; cases he
  | cons e' es ih =>
    intro e he hm
    simp only [processEntries, List.foldl_cons]
    rcases List.mem_cons.mp he with he' | he'
    · subst he'
      exact mem_keys_entries u ok i es _ _ (matchedKey_pp u ok i e st hm)
    · exact ih _ e he' hm

lemma matchedKey_crossReference (u : String) (ok : AlertRow → Bool)
    (ings : List MonitoredIngredient) (entries : List NormalizedEntry) (st : RunState) :
    ∀ i ∈ ings, ∀ e ∈ entries, matchedB i.ingredient_name i.cas_number e = true →
      keyOf i e ∈ (crossReference u ok ings entries st).existingKeys := by
  induction ings generalizing st with
  | nil => intro i hi; cases hi
  | cons i' is ih =>
    intro i hi e he hm
    simp only [crossReference, List.foldl_cons]
    rcases List.mem_cons.mp hi with hi' | hi'
    · subst hi'
      exact mem_keys_crossReference u ok is entries _ _
        (matchedKey_entries u ok i entries st e he hm)
    · exact ih _ i hi' e he hm

lemma keysOrigin_pp (u : String) (i : MonitoredIngredient) (e : NormalizedEntry)
    (st : RunState) (keys0 : List String)
    (h : ∀ k ∈ st.existingKeys, k ∈ keys0 ∨ k ∈ st.insertedRows.map rowKey) :
    ∀ k ∈ (processPair u (fun _ => true) i e st).existingKeys,
      k ∈ keys0 ∨ k ∈ (processPair u (fun _ => true) i e st).insertedRows.map rowKey := by
  simp only [processPair]
  split_ifs with hm hc
  · exact h
  · exact h
  · intro k hk
    rcases List.mem_cons.mp hk with hk' | hk'
    · right
      subst hk'
      rw [List.map_append]
      apply List.mem_append_right
      have hkey : rowKey (mkAlertRow u i.id e) = dedupKey i.id e.name e.source := rfl
      simp [hkey]
    · rcases h k hk' with h0 | h0
      · exact Or.inl h0
      · right
        rw [List.map_append]
        exact List.mem_append_left _ h0

lemma keysOrigin_entries (u : String) (i : MonitoredIngredient)
    (entries : List NormalizedEntry) (st : RunState) (keys0 : List String)
    (h : ∀ k ∈ st.existingKeys, k ∈ keys0 ∨ k ∈ st.insertedRows.map rowKey) :
    ∀ k ∈ (processEntries u (fun _ => true) i entries st).existingKeys,
      k ∈ keys0 ∨ k ∈ (processEntries u (fun _ => true) i entries st).insertedRows.map rowKey := by
  induction entries generalizing st with
  | nil => exact h
  | cons e es ih => exact ih _ (keysOrigin_pp u i e st keys0 h)

lemma keysOrigin_crossReference (u : String) (ings : List MonitoredIngredient)
    (entries : List NormalizedEntry) (st : RunState) (keys0 : List String)
    (h : ∀ k ∈ st.existingKeys, k ∈ keys0 ∨ k ∈ st.insertedRows.map rowKey) :
    ∀ k ∈ (crossReference u (fun _ => true) ings entries st).existingKeys,
      k ∈ keys0 ∨ k ∈ (crossReference u (fun _ => true) ings entries st).insertedRows.map rowKey := by
  induction ings generalizing st with
  | nil => exact h
  | cons i is ih => exact ih _ (keysOrigin_entries u i entries st keys0 h)

lemma alldup_pp (u : String) (ok : AlertRow → Bool) (i : MonitoredIngredient)
    (e : NormalizedEntry) (st : RunState)
    (h : matchedB i.ingredient_name i.cas_number e = true → keyOf i e ∈ st.existingKeys) :
    processPair u ok i e st
      = { st with duplicatesSkipped := st.duplicatesSkipped
            + (if matchedB i.ingredient_name i.cas_number e = true then 1 else 0) } := by
  by_cases hm : pairMatch i.ingredient_name i.cas_number e = MatchKind.NoMatch
  · have hmB : matchedB i.ingredient_name i.cas_number e = false := by
      simp [matchedB, hm]
    simp [processPair, hm, hmB]
  · have hmB : matchedB i.ingredient_name i.cas_number e = true := by
      simp [matchedB, hm]
    have hcm : dedupKey i.id e.name e.source ∈ st.existingKeys := h hmB
    simp [processPair, if_neg hm, hcm, hmB]

lemma alldup_entries (u : String) (ok : AlertRow → Bool) (i : MonitoredIngredient)
    (entries : List NormalizedEntry) (st : RunState)
    (h : ∀ e ∈ entries, matchedB i.ingredient_name i.cas_number e = true →
      keyOf i e ∈ st.existingKeys) :
    processEntries u ok i entries st
      = { st with duplicatesSkipped := st.duplicatesSkipped + countMatched i entries } := by
  induction entries generalizing st with
  | nil => simp [processEntries, countMatched]
  | cons e es ih =>
    have h1 := alldup_pp u ok i e st (h e (List.mem_cons_self e es))
    have ih' := ih
      { st with duplicatesSkipped := st.duplicatesSkipped
          + (if matchedB i.ingredient_name i.cas_number e = true then 1 else 0) }
      (fun e' he' hm => h e' (List.mem_cons_of_mem e he') hm)
    simp only [processEntries, List.foldl_cons] at ih' ⊢
    rw [h1, ih']
    simp only [countMatched, List.countP_cons]
    congr 1
    omega

lemma alldup_crossReference (u : String) (ok : AlertRow → Bool)
    (ings : List MonitoredIngredient) (entries : List NormalizedEntry) (st : RunState)
    (h : ∀ i ∈ ings, ∀ e ∈ entries, matchedB i.ingredient_name i.cas_number e = true →
      keyOf i e ∈ st.existingKeys) :
    crossReference u ok ings entries st
      = { st with duplicatesSkipped := st.duplicatesSkipped + matchCount ings entries } := by
  induction ings generalizing st with
  | nil => simp [crossReference, matchCount]
  | cons i is ih =>
    have h1 := alldup_entries u ok i entries st (h i (List.mem_cons_self i is))
    have ih' := ih
      { st with duplicatesSkipped := st.duplicatesSkipped + countMatched i entries }
      (fun i' hi' e he hm => h i' (List.mem_cons_of_mem i hi') e he hm)
    simp only [crossReference, List.foldl_cons] at ih' ⊢
    rw [h1, ih']
    simp only [matchCount, List.map_cons, List.sum_cons]
    congr 1
    omega

lemma created_attempted_pp (u : String) (i : MonitoredIngredient) (e : NormalizedEntry)
    (st : RunState) (h : st.alertsCreated = st.attemptedRows.length) :
    (processPair u (fun _ => true) i e st).alertsCreated
      = (processPair u (fun _ => true) i e st).attemptedRows.length := by
  simp only [processPair]
  split_ifs with hm hc <;> simp_all

lemma created_attempted_entries (u : String) (i : MonitoredIngredient)
    (entries : List NormalizedEntry) (st : RunState)
    (h : st.alertsCreated = st.attemptedRows.length) :
    (processEntries u (fun _ => true) i entries st).alertsCreated
      = (processEntries u (fun _ => true) i entries st).attemptedRows.length := by
  induction entries generalizing st with
  | nil => exact h
  | cons e es ih => exact ih _ (created_attempted_pp u i e st h)

lemma created_attempted_crossReference (u : String) (ings : List MonitoredIngredient)
    (entries : List NormalizedEntry) (st : RunState)
    (h : st.alertsCreated = st.attemptedRows.length) :
    (crossReference u (fun _ => true) ings entries st).alertsCreated
      = (crossReference u (fun _ => true) ings entries st).attemptedRows.length := by
  induction ings generalizing st with
  | nil => exact h
  | cons i is ih => exact ih _ (created_attempted_entries u i entries st h)

/-- C3, claim as stated, refuted: with one ingredient "Titanium dioxide" and
a source listing "Dioxide" twice under the same source (an in-run
duplicate), the first run creates 1 alert and skips 1 duplicate; the second
run (starting from the alerts the first run persisted) skips 2 duplicates,
which differs from the first run's `alertsCreated = 1`. -/
theorem c3_counterexample :
    (checkRegulationsPOST "u" (fun _ => true) true
        [{ id := "i1", ingredient_name := "Titanium dioxide", cas_number := none }]
        [{ name := "Dioxide", casNumber := none, reason := none, regulation := "R"
           url := none, source := Source.ECHA_SVHC },
         { name := "Dioxide", casNumber := none, reason := none, regulation := "R"
           url := none, source := Source.ECHA_SVHC }]
        []).alertsCreated = 1 ∧
    (checkRegulationsPOST "u" (fun _ => true) true
        [{ id := "i1", ingredient_name := "Titanium dioxide", cas_number := none }]
        [{ name := "Dioxide", casNumber := none, reason := none, regulation := "R"
           url := none, source := Source.ECHA_SVHC },
         { name := "Dioxide", casNumber := none, reason := none, regulation := "R"
           url := none, source := Source.ECHA_SVHC }]
        ((checkRegulationsPOST "u" (fun _ => true) true
          [{ id := "i1", ingredient_name := "Titanium dioxide", cas_number := none }]
          [{ name := "Dioxide", casNumber := none, reason := none, regulation := "R"
             url := none, source := Source.ECHA_SVHC },
           { name := "Dioxide", casNumber := none, reason := none, regulation := "R"
             url := none, source := Source.ECHA_SVHC }]
          []).insertedRows.map toExisting)).alertsCreated = 0 ∧
    (checkRegulationsPOST "u" (fun _ => true) true
        [{ id := "i1", ingredient_name := "Titanium dioxide", cas_number := none }]
        [{ name := "Dioxide", casNumber := none, reason := none, regulation := "R"
           url := none, source := Source.ECHA_SVHC },
         { name := "Dioxide", casNumber := none, reason := none, regulation := "R"
           url := none, source := Source.ECHA_SVHC }]
        ((checkRegulationsPOST "u" (fun _ => true) true
          [{ id := "i1", ingredient_name := "Titanium dioxide", cas_number := none }]
          [{ name := "Dioxide", casNumber := none, reason := none, regulation := "R"
             url := none, source := Source.ECHA_SVHC },
           { name := "Dioxide", casNumber := none, reason := none, regulation := "R"
             url := none, source := Source.ECHA_SVHC }]
          []).insertedRows.map toExisting)).duplicatesSkipped = 2 ∧
    ¬ ((checkRegulationsPOST "u" (fun _ => true) true
        [{ id := "i1", ingredient_name := "Titanium dioxide", cas_number := none }]
        [{ name := "Dioxide", casNumber := none, reason := none, regulation := "R"
           url := none, source := Source.ECHA_SVHC },
         { name := "Dioxide", casNumber := none, reason := none, regulation := "R"
           url := none, source := Source.ECHA_SVHC }]
        ((checkRegulationsPOST "u" (fun _ => true) true
          [{ id := "i1", ingredient_name := "Titanium dioxide", cas_number := none }]
          [{ name := "Dioxide", casNumber := none, reason := none, regulation := "R"
             url := none, source := Source.ECHA_SVHC },
           { name := "Dioxide", casNumber := none, reason := none, regulation := "R"
             url := none, source := Source.ECHA_SVHC }]
          []).insertedRows.map toExisting)).duplicatesSkipped
      = (checkRegulationsPOST "u" (fun _ => true) true
          [{ id := "i1", ingredient_name := "Titanium dioxide", cas_number := none }]
          [{ name := "Dioxide", casNumber := none, reason := none, regulation := "R"
             url := none, source := Source.ECHA_SVHC },
           { name := "Dioxide", casNumber := none, reason := none, regulation := "R"
             url := none, source := Source.ECHA_SVHC }]
          []).alertsCreated) := by
  decide

/-- C3 amended: with all inserts succeeding, the second run (starting from
the alert state left by the first, over the same ingredients and entries)
creates 0 alerts and skips exactly `alertsCreated + duplicatesSkipped` of
the first run — i.e. every matched pair, counting in-run duplicates, not
only the pairs that produced a new alert. -/
theorem c3_amended (userId : String) (ings : List MonitoredIngredient)
    (entries : List NormalizedEntry) (existing : List ExistingAlert) :
    (checkRegulationsPOST userId (fun _ => true) true ings entries
        (existing ++ (checkRegulationsPOST userId (fun _ => true) true ings entries
          existing).insertedRows.map toExisting)).alertsCreated = 0
    ∧ (checkRegulationsPOST userId (fun _ => true) true ings entries
        (existing ++ (checkRegulationsPOST userId (fun _ => true) true ings entries
          existing).insertedRows.map toExisting)).duplicatesSkipped
      = (checkRegulationsPOST userId (fun _ => true) true ings entries
            existing).alertsCreated
        + (checkRegulationsPOST userId (fun _ => true) true ings entries
            existing).duplicatesSkipped := by
  classical
  set keys0 := existing.map existingKey with hkeys0
  set st1 : RunState :=
    { existingKeys := keys0, alertsCreated := 0, duplicatesSkipped := 0
      newAlerts := [], insertedRows := [], attemptedRows := [] } with hst1
  set F := crossReference userId (fun _ => true) ings entries st1 with hF
  have horigin : ∀ k ∈ F.existingKeys, k ∈ keys0 ∨ k ∈ F.insertedRows.map rowKey := by
    apply keysOrigin_crossReference
    intro k hk
    exact Or.inl hk
  have hmatched : ∀ i ∈ ings, ∀ e ∈ entries,
      matchedB i.ingredient_name i.cas_number e = true → keyOf i e ∈ F.existingKeys :=
    matchedKey_crossReference userId (fun _ => true) ings entries st1
  -- the second run's initial key list
  have hkeys2 : (existing ++ F.insertedRows.map toExisting).map existingKey
      = keys0 ++ F.insertedRows.map rowKey := by
    rw [List.map_append, List.map_map]
    rfl
  have hall : ∀ i ∈ ings, ∀ e ∈ entries,
      matchedB i.ingredient_name i.cas_number e = true →
      keyOf i e ∈ keys0 ++ F.insertedRows.map rowKey := by
    intro i hi e he hm
    rcases horigin _ (hmatched i hi e he hm) with h0 | h0
    · exact List.mem_append_left _ h0
    · exact List.mem_append_right _ h0
  have hrun2 := alldup_crossReference userId (fun _ => true) ings entries
    { existingKeys := keys0 ++ F.insertedRows.map rowKey, alertsCreated := 0
      duplicatesSkipped := 0, newAlerts := [], insertedRows := [], attemptedRows := [] }
    hall
  have hcount := count_crossReference userId (fun _ => true) ings entries st1
  have hca := created_attempted_crossReference userId ings entries st1 rfl
  constructor
  · simp only [checkRegulationsPOST, hkeys2, ← hF, ← hst1, ← hkeys0]
    rw [hrun2]
  · simp only [checkRegulationsPOST, hkeys2, ← hF, ← hst1, ← hkeys0]
    rw [hrun2]
    simp only [hst1] at hcount hca
    rw [← hF] at hcount hca
    simp at hcount ⊢
    omega

/-! ## C2: notification only after durable writes -/

/-- C2 is violated by the batch variant: with one tenant "A" whose single
ingredient matches one entry but whose batch insert fails, the run persists
nothing (`alertsCreated = 0`, no durable rows) yet still invokes the
Notifier with the unpersisted alert and counts the email as sent. -/
theorem c2_batch_unpersisted_notification :
    (dailyCheckGET [{ name := "Dioxide", casNumber := none, reason := none, echaUrl := none }]
        [] []
        [{ id := "i1", ingredient_name := "Titanium dioxide", cas_number := none
           user_id := "A", company_name := none }]
        { users := [{ id := "A", email := some "a@example.com" }]
          existingAlertsFor := fun _ => [], tenantThrows := fun _ => false
          insertOkFor := fun _ => false, emailOkFor := fun _ => true }).alertsCreated = 0
    ∧ (dailyCheckGET [{ name := "Dioxide", casNumber := none, reason := none, echaUrl := none }]
        [] []
        [{ id := "i1", ingredient_name := "Titanium dioxide", cas_number := none
           user_id := "A", company_name := none }]
        { users := [{ id := "A", email := some "a@example.com" }]
          existingAlertsFor := fun _ => [], tenantThrows := fun _ => false
          insertOkFor := fun _ => false, emailOkFor := fun _ => true }).tenantRows
      = [("A", [])]
    ∧ (dailyCheckGET [{ name := "Dioxide", casNumber := none, reason := none, echaUrl := none }]
        [] []
        [{ id := "i1", ingredient_name := "Titanium dioxide", cas_number := none
           user_id := "A", company_name := none }]
        { users := [{ id := "A", email := some "a@example.com" }]
          existingAlertsFor := fun _ => [], tenantThrows := fun _ => false
          insertOkFor := fun _ => false, emailOkFor := fun _ => true }).emailBatches
      = [("A", [{ substanceName := "Dioxide", casNumber := none
                  ingredientName := "Titanium dioxide", reason := none
                  source := Source.ECHA_SVHC }])]
    ∧ (dailyCheckGET [{ name := "Dioxide", casNumber := none, reason := none, echaUrl := none }]
        [] []
        [{ id := "i1", ingredient_name := "Titanium dioxide", cas_number := none
           user_id := "A", company_name := none }]
        { users := [{ id := "A", email := some "a@example.com" }]
          existingAlertsFor := fun _ => [], tenantThrows := fun _ => false
          insertOkFor := fun _ => false, emailOkFor := fun _ => true }).emailsSent = 1 := by
  decide

/-! ## C10: tenants with no resolvable email are skipped -/

/-- C10: a tenant group whose user id does not resolve to a (non-empty)
email is skipped before any matching: removing that group from the loop
changes nothing — no alerts, no notification, no `usersChecked` increment,
no error. -/
theorem c10_unresolved_email_skipped (entries : List NormalizedEntry) (env : BatchEnv)
    (l1 l2 : List (String × List IngredientRow)) (u : String)
    (ingsU : List IngredientRow) (acc : BatchAcc)
    (h : emailMissing (emailMapGet env.users u) = true) :
    processUsersFold entries env (l1 ++ (u, ingsU) :: l2) acc
      = processUsersFold entries env (l1 ++ l2) acc := by
  induction l1 generalizing acc with
  | nil =>
    simp only [List.nil_append, processUsersFold, List.foldl_cons]
    have hid : processUserGroup entries env acc (u, ingsU) = acc := by
      simp [processUserGroup, h]
    rw [hid]
  | cons g l1' ih =>
    simp only [List.cons_append, processUsersFold, List.foldl_cons] at ih ⊢
    exact ih _

/-- Witness for `c10_unresolved_email_skipped`: a user-listing that maps
tenant "B" to no account at all. -/
theorem c10_unresolved_email_skipped_witness :
    emailMissing (emailMapGet fixtureEnvOnlyC.users "B") = true
    ∧ processUsersFold [fixtureEntry] fixtureEnvOnlyC
        ([] ++ ("B", []) :: [("C", [])]) emptyBatchAcc
      = processUsersFold [fixtureEntry] fixtureEnvOnlyC ([] ++ [("C", [])]) emptyBatchAcc :=
  ⟨by decide,
    c10_unresolved_email_skipped [fixtureEntry] fixtureEnvOnlyC [] [("C", [])] "B" []
      emptyBatchAcc (by decide)⟩

/-! ## C8: per-tenant isolation in the batch variant -/

lemma c8_step (entries : List NormalizedEntry) (env1 env2 : BatchEnv) (B : String)
    (hmail : emailMapGet env1.users B = emailMapGet env2.users B)
    (hex : env1.existingAlertsFor B = env2.existingAlertsFor B)
    (hth : env1.tenantThrows B = env2.tenantThrows B)
    (hins : env1.insertOkFor B = env2.insertOkFor B)
    (hem : env1.emailOkFor B = env2.emailOkFor B)
    (g : String × List IngredientRow) (acc1 acc2 : BatchAcc)
    (h1 : acc1.tenantRows.filter (fun p => p.1 == B)
      = acc2.tenantRows.filter (fun p => p.1 == B))
    (h2 : acc1.emailBatches.filter (fun p => p.1 == B)
      = acc2.emailBatches.filter (fun p => p.1 == B)) :
    (processUserGroup entries env1 acc1 g).tenantRows.filter (fun p => p.1 == B)
      = (processUserGroup entries env2 acc2 g).tenantRows.filter (fun p => p.1 == B)
    ∧ (processUserGroup entries env1 acc1 g).emailBatches.filter (fun p => p.1 == B)
      = (processUserGroup entries env2 acc2 g).emailBatches.filter (fun p => p.1 == B) := by
  obtain ⟨u, ingsU⟩ := g
  by_cases hB : u = B
  · subst hB
    simp only [processUserGroup, hmail, hth, hex, hins, hem]
    split_ifs <;> constructor <;>
      simp [List.filter_append, h1, h2]
  · have hgB : (u == B) = false := by simpa using hB
    have key : ∀ (env : BatchEnv) (acc : BatchAcc),
        (processUserGroup entries env acc (u, ingsU)).tenantRows.filter (fun p => p.1 == B)
          = acc.tenantRows.filter (fun p => p.1 == B)
        ∧ (processUserGroup entries env acc (u, ingsU)).emailBatches.filter
            (fun p => p.1 == B)
          = acc.emailBatches.filter (fun p => p.1 == B) := by
      intro env acc
      simp only [processUserGroup]
      split_ifs <;> constructor <;> simp [List.filter_append, hgB]
    exact ⟨((key env1 acc1).1.trans h1).trans (key env2 acc2).1.symm,
      ((key env1 acc1).2.trans h2).trans (key env2 acc2).2.symm⟩

lemma c8_fold_filter (entries : List NormalizedEntry) (env1 env2 : BatchEnv) (B : String)
    (hmail : emailMapGet env1.users B = emailMapGet env2.users B)
    (hex : env1.existingAlertsFor B = env2.existingAlertsFor B)
    (hth : env1.tenantThrows B = env2.tenantThrows B)
    (hins : env1.insertOkFor B = env2.insertOkFor B)
    (hem : env1.emailOkFor B = env2.emailOkFor B) :
    ∀ (groups : List (String × List IngredientRow)) (acc1 acc2 : BatchAcc),
    acc1.tenantRows.filter (fun p => p.1 == B)
        = acc2.tenantRows.filter (fun p => p.1 == B) →
    acc1.emailBatches.filter (fun p => p.1 == B)
        = acc2.emailBatches.filter (fun p => p.1 == B) →
    (processUsersFold entries env1 groups acc1).tenantRows.filter (fun p => p.1 == B)
        = (processUsersFold entries env2 groups acc2).tenantRows.filter (fun p => p.1 == B)
    ∧ (processUsersFold entries env1 groups acc1).emailBatches.filter (fun p => p.1 == B)
        = (processUsersFold entries env2 groups acc2).emailBatches.filter
            (fun p => p.1 == B) := by
  intro groups
  induction groups with
  | nil => intro acc1 acc2 h1 h2; exact ⟨h1, h2⟩
  | cons g gs ih =>
    intro acc1 acc2 h1 h2
    simp only [processUsersFold, List.foldl_cons] at ih ⊢
    obtain ⟨s1, s2⟩ := c8_step entries env1 env2 B hmail hex hth hins hem g acc1 acc2 h1 h2
    exact ih _ _ s1 s2

/-- C8: in the batch variant, tenant B's durable rows and notification
batch depend only on tenant B's own collaborators — any change elsewhere
(another tenant's thrown exception, write failure, or anything else) leaves
B's outcome unchanged, because the per-tenant try/catch keeps the loop
going. -/
theorem c8_tenant_isolation (entries : List NormalizedEntry) (env1 env2 : BatchEnv)
    (groups : List (String × List IngredientRow)) (B : String)
    (hmail : emailMapGet env1.users B = emailMapGet env2.users B)
    (hex : env1.existingAlertsFor B = env2.existingAlertsFor B)
    (hth : env1.tenantThrows B = env2.tenantThrows B)
    (hins : env1.insertOkFor B = env2.insertOkFor B)
    (hem : env1.emailOkFor B = env2.emailOkFor B) :
    (processUsersFold entries env1 groups emptyBatchAcc).tenantRows.filter
        (fun p => p.1 == B)
      = (processUsersFold entries env2 groups emptyBatchAcc).tenantRows.filter
        (fun p => p.1 == B)
    ∧ (processUsersFold entries env1 groups emptyBatchAcc).emailBatches.filter
        (fun p => p.1 == B)
      = (processUsersFold entries env2 groups emptyBatchAcc).emailBatches.filter
        (fun p => p.1 == B) :=
  c8_fold_filter entries env1 env2 B hmail hex hth hins hem groups
    emptyBatchAcc emptyBatchAcc rfl rfl

/-- Witness for `c8_tenant_isolation`: tenant "A" throws in the first
environment and not in the second; tenant "B"'s oracles agree, so B's
outcome is identical in both runs. -/
theorem c8_tenant_isolation_witness :
    (emailMapGet fixtureEnvThrowsA.users "B" = emailMapGet fixtureEnvNoThrow.users "B"
    ∧ fixtureEnvThrowsA.existingAlertsFor "B" = fixtureEnvNoThrow.existingAlertsFor "B"
    ∧ fixtureEnvThrowsA.tenantThrows "B" = fixtureEnvNoThrow.tenantThrows "B"
    ∧ fixtureEnvThrowsA.insertOkFor "B" = fixtureEnvNoThrow.insertOkFor "B"
    ∧ fixtureEnvThrowsA.emailOkFor "B" = fixtureEnvNoThrow.emailOkFor "B")
    ∧ ((processUsersFold [fixtureEntry] fixtureEnvThrowsA fixtureGroupsAB
          emptyBatchAcc).tenantRows.filter (fun p => p.1 == "B")
      = (processUsersFold [fixtureEntry] fixtureEnvNoThrow fixtureGroupsAB
          emptyBatchAcc).tenantRows.filter (fun p => p.1 == "B")
    ∧ (processUsersFold [fixtureEntry] fixtureEnvThrowsA fixtureGroupsAB
          emptyBatchAcc).emailBatches.filter (fun p => p.1 == "B")
      = (processUsersFold [fixtureEntry] fixtureEnvNoThrow fixtureGroupsAB
          emptyBatchAcc).emailBatches.filter (fun p => p.1 == "B")) :=
  ⟨⟨rfl, rfl, by decide, rfl, rfl⟩,
    c8_tenant_isolation [fixtureEntry] fixtureEnvThrowsA fixtureEnvNoThrow
      fixtureGroupsAB "B" rfl rfl (by decide) rfl rfl⟩

/-! ## C9: order invariance -/

lemma keyRevHead (a b : String) (s : Source) :
    (dedupKey a b s).data.reverse.head? = some (sourceLastChar s) := by
  have hd : (dedupKey a b s).data
      = (a ++ "::" ++ b ++ "::").data ++ (Source.label s).data := by
    simp [dedupKey, String.data_append]
  rw [hd, List.reverse_append]
  have hne : (Source.label s).data.reverse ≠ [] := by cases s <;> decide
  rw [List.head?_append_of_ne_nil _ hne]
  cases s <;> decide

lemma dedupKey_ne_of_source_ne (a b c d : String) {s1 s2 : Source} (h : s1 ≠ s2) :
    dedupKey a b s1 ≠ dedupKey c d s2 := by
  intro he
  have h1 := keyRevHead a b s1
  have h2 := keyRevHead c d s2
  rw [he, h2] at h1
  have : sourceLastChar s2 = sourceLastChar s1 := by
    injection h1
  cases s1 <;> cases s2 <;> first | exact h rfl | simp_all [sourceLastChar]

lemma stEquiv_refl (s : RunState) : StEquiv s s :=
  ⟨fun _ => Iff.rfl, List.Perm.refl _⟩

lemma stEquiv_trans {s1 s2 s3 : RunState} (h1 : StEquiv s1 s2) (h2 : StEquiv s2 s3) :
    StEquiv s1 s3 :=
  ⟨fun k => (h1.keys k).trans (h2.keys k), h1.rows.trans h2.rows⟩

lemma not_mem_of_contains_false {l : List String} {k : String}
    (hc : l.contains k = false) : ¬ k ∈ l := by
  intro hm
  rw [(contains_iff l k).mpr hm] at hc
  cases hc

lemma pp_noMatch (u : String) (ok : AlertRow → Bool) (i : MonitoredIngredient)
    (e : NormalizedEntry) (st : RunState)
    (hm : pairMatch i.ingredient_name i.cas_number e = MatchKind.NoMatch) :
    processPair u ok i e st = st := by
  simp [processPair, hm]

lemma pp_dup (u : String) (ok : AlertRow → Bool) (i : MonitoredIngredient)
    (e : NormalizedEntry) (st : RunState)
    (hm : ¬ pairMatch i.ingredient_name i.cas_number e = MatchKind.NoMatch)
    (hc : st.existingKeys.contains (dedupKey i.id e.name e.source) = true) :
    processPair u ok i e st = { st with duplicatesSkipped := st.duplicatesSkipped + 1 } := by
  simp [processPair, if_neg hm, hc, (contains_iff _ _).mp hc]

lemma pp_accept (u : String) (ok : AlertRow → Bool) (i : MonitoredIngredient)
    (e : NormalizedEntry) (st : RunState)
    (hm : ¬ pairMatch i.ingredient_name i.cas_number e = MatchKind.NoMatch)
    (hc : st.existingKeys.contains (dedupKey i.id e.name e.source) = false) :
    processPair u ok i e st =
      (if ok (mkAlertRow u i.id e) = true then
        { st with
          existingKeys := dedupKey i.id e.name e.source :: st.existingKeys
          alertsCreated := st.alertsCreated + 1
          newAlerts := st.newAlerts ++ [mkEmailAlert i.ingredient_name e]
          insertedRows := st.insertedRows ++ [mkAlertRow u i.id e]
          attemptedRows := st.attemptedRows ++ [mkAlertRow u i.id e] }
      else
        { st with
          existingKeys := dedupKey i.id e.name e.source :: st.existingKeys
          attemptedRows := st.attemptedRows ++ [mkAlertRow u i.id e] }) := by
  simp [processPair, if_neg hm, hc, not_mem_of_contains_false hc]

lemma procE_cons (u : String) (ok : AlertRow → Bool) (i : MonitoredIngredient)
    (e : NormalizedEntry) (es : List NormalizedEntry) (st : RunState) :
    processEntries u ok i (e :: es) st
      = processEntries u ok i es (processPair u ok i e st) := rfl

lemma procE_append (u : String) (ok : AlertRow → Bool) (i : MonitoredIngredient)
    (xs ys : List NormalizedEntry) (st : RunState) :
    processEntries u ok i (xs ++ ys) st
      = processEntries u ok i ys (processEntries u ok i xs st) := by
  simp [processEntries, List.foldl_append]

lemma crossRef_cons (u : String) (ok : AlertRow → Bool) (i : MonitoredIngredient)
    (is : List MonitoredIngredient) (entries : List NormalizedEntry) (st : RunState) :
    crossReference u ok (i :: is) entries st
      = crossReference u ok is entries (processEntries u ok i entries st) := rfl

lemma pp_congr (u : String) (ok : AlertRow → Bool) (i : MonitoredIngredient)
    (e : NormalizedEntry) {s1 s2 : RunState} (h : StEquiv s1 s2) :
    StEquiv (processPair u ok i e s1) (processPair u ok i e s2) := by
  by_cases hm : pairMatch i.ingredient_name i.cas_number e = MatchKind.NoMatch
  · rw [pp_noMatch u ok i e s1 hm, pp_noMatch u ok i e s2 hm]
    exact h
  · have hcb : s1.existingKeys.contains (dedupKey i.id e.name e.source)
        = s2.existingKeys.contains (dedupKey i.id e.name e.source) := by
      have hiff := h.keys (dedupKey i.id e.name e.source)
      rw [← contains_iff, ← contains_iff] at hiff
      exact Bool.eq_iff_iff.mpr hiff
    cases hc : s2.existingKeys.contains (dedupKey i.id e.name e.source) with
    | false =>
      rw [pp_accept u ok i e s1 hm (hcb.trans hc), pp_accept u ok i e s2 hm hc]
      by_cases hok : ok (mkAlertRow u i.id e) = true
      · rw [if_pos hok, if_pos hok]
        exact ⟨fun k => by simp [List.mem_cons, h.keys k],
          h.rows.append (List.Perm.refl _)⟩
      · rw [if_neg hok, if_neg hok]
        exact ⟨fun k => by simp [List.mem_cons, h.keys k], h.rows⟩
    | true =>
      rw [pp_dup u ok i e s1 hm (hcb.trans hc), pp_dup u ok i e s2 hm hc]
      exact ⟨h.keys, h.rows⟩

lemma procE_congr (u : String) (ok : AlertRow → Bool) (i : MonitoredIngredient)
    (entries : List NormalizedEntry) {s1 s2 : RunState} (h : StEquiv s1 s2) :
    StEquiv (processEntries u ok i entries s1) (processEntries u ok i entries s2) := by
  induction entries generalizing s1 s2 with
  | nil => exact h
  | cons e es ih => exact ih (pp_congr u ok i e h)

lemma pp_swap (u : String) (ok : AlertRow → Bool) (i : MonitoredIngredient)
    (x y : NormalizedEntry) (hxy : x.source ≠ y.source) (s : RunState) :
    StEquiv (processPair u ok i y (processPair u ok i x s))
      (processPair u ok i x (processPair u ok i y s)) := by
  by_cases hmx : pairMatch i.ingredient_name i.cas_number x = MatchKind.NoMatch
  · rw [pp_noMatch u ok i x s hmx, pp_noMatch u ok i x (processPair u ok i y s) hmx]
    exact stEquiv_refl _
  · by_cases hmy : pairMatch i.ingredient_name i.cas_number y = MatchKind.NoMatch
    · rw [pp_noMatch u ok i y (processPair u ok i x s) hmy, pp_noMatch u ok i y s hmy]
      exact stEquiv_refl _
    · have hk : dedupKey i.id y.name y.source ≠ dedupKey i.id x.name x.source :=
        dedupKey_ne_of_source_ne _ _ _ _ (Ne.symm hxy)
      have hbyx : (dedupKey i.id y.name y.source == dedupKey i.id x.name x.source) = false :=
        beq_eq_false_of_ne hk
      have hbxy : (dedupKey i.id x.name x.source == dedupKey i.id y.name y.source) = false :=
        beq_eq_false_of_ne (Ne.symm hk)
      cases hcx : s.existingKeys.contains (dedupKey i.id x.name x.source) with
      | true =>
        cases hcy : s.existingKeys.contains (dedupKey i.id y.name y.source) with
        | true =>
          rw [pp_dup u ok i x s hmx hcx, pp_dup u ok i y s hmy hcy,
            pp_dup u ok i y { s with duplicatesSkipped := s.duplicatesSkipped + 1 } hmy hcy,
            pp_dup u ok i x { s with duplicatesSkipped := s.duplicatesSkipped + 1 } hmx hcx]
          exact stEquiv_refl _
        | false =>
          rw [pp_dup u ok i x s hmx hcx, pp_accept u ok i y s hmy hcy,
            pp_accept u ok i y { s with duplicatesSkipped := s.duplicatesSkipped + 1 } hmy hcy]
          by_cases hok : ok (mkAlertRow u i.id y) = true
          · rw [if_pos hok, if_pos hok,
              pp_dup u ok i x
                { s with
                  existingKeys := dedupKey i.id y.name y.source :: s.existingKeys
                  alertsCreated := s.alertsCreated + 1
                  newAlerts := s.newAlerts ++ [mkEmailAlert i.ingredient_name y]
                  insertedRows := s.insertedRows ++ [mkAlertRow u i.id y]
                  attemptedRows := s.attemptedRows ++ [mkAlertRow u i.id y] }
                hmx (by show (dedupKey i.id y.name y.source :: s.existingKeys).contains (dedupKey i.id x.name x.source) = _ ; rw [List.contains_cons, hbxy, hcx]; rfl)]
            exact stEquiv_refl _
          · rw [if_neg hok, if_neg hok,
              pp_dup u ok i x
                { s with
                  existingKeys := dedupKey i.id y.name y.source :: s.existingKeys
                  attemptedRows := s.attemptedRows ++ [mkAlertRow u i.id y] }
                hmx (by show (dedupKey i.id y.name y.source :: s.existingKeys).contains (dedupKey i.id x.name x.source) = _ ; rw [List.contains_cons, hbxy, hcx]; rfl)]
            exact stEquiv_refl _
      | false =>
        cases hcy : s.existingKeys.contains (dedupKey i.id y.name y.source) with
        | true =>
          rw [pp_accept u ok i x s hmx hcx, pp_dup u ok i y s hmy hcy,
            pp_accept u ok i x { s with duplicatesSkipped := s.duplicatesSkipped + 1 } hmx hcx]
          by_cases hok : ok (mkAlertRow u i.id x) = true
          · rw [if_pos hok, if_pos hok,
              pp_dup u ok i y
                { s with
                  existingKeys := dedupKey i.id x.name x.source :: s.existingKeys
                  alertsCreated := s.alertsCreated + 1
                  newAlerts := s.newAlerts ++ [mkEmailAlert i.ingredient_name x]
                  insertedRows := s.insertedRows ++ [mkAlertRow u i.id x]
                  attemptedRows := s.attemptedRows ++ [mkAlertRow u i.id x] }
                hmy (by show (dedupKey i.id x.name x.source :: s.existingKeys).contains (dedupKey i.id y.name y.source) = _ ; rw [List.contains_cons, hbyx, hcy]; rfl)]
            exact stEquiv_refl _
          · rw [if_neg hok, if_neg hok,
              pp_dup u ok i y
                { s with
                  existingKeys := dedupKey i.id x.name x.source :: s.existingKeys
                  attemptedRows := s.attemptedRows ++ [mkAlertRow u i.id x] }
                hmy (by show (dedupKey i.id x.name x.source :: s.existingKeys).contains (dedupKey i.id y.name y.source) = _ ; rw [List.contains_cons, hbyx, hcy]; rfl)]
            exact stEquiv_refl _
        | false =>
          rw [pp_accept u ok i x s hmx hcx, pp_accept u ok i y s hmy hcy]
          by_cases hokx : ok (mkAlertRow u i.id x) = true
          · rw [if_pos hokx,
              pp_accept u ok i y
                { s with
                  existingKeys := dedupKey i.id x.name x.source :: s.existingKeys
                  alertsCreated := s.alertsCreated + 1
                  newAlerts := s.newAlerts ++ [mkEmailAlert i.ingredient_name x]
                  insertedRows := s.insertedRows ++ [mkAlertRow u i.id x]
                  attemptedRows := s.attemptedRows ++ [mkAlertRow u i.id x] }
                hmy (by show (dedupKey i.id x.name x.source :: s.existingKeys).contains (dedupKey i.id y.name y.source) = _ ; rw [List.contains_cons, hbyx, hcy]; rfl)]
            by_cases hoky : ok (mkAlertRow u i.id y) = true
            · rw [if_pos hoky, if_pos hoky,
                pp_accept u ok i x
                  { s with
                    existingKeys := dedupKey i.id y.name y.source :: s.existingKeys
                    alertsCreated := s.alertsCreated + 1
                    newAlerts := s.newAlerts ++ [mkEmailAlert i.ingredient_name y]
                    insertedRows := s.insertedRows ++ [mkAlertRow u i.id y]
                    attemptedRows := s.attemptedRows ++ [mkAlertRow u i.id y] }
                  hmx (by show (dedupKey i.id y.name y.source :: s.existingKeys).contains (dedupKey i.id x.name x.source) = _ ; rw [List.contains_cons, hbxy, hcx]; rfl),
                if_pos hokx]
              refine ⟨fun k => by simp only [List.mem_cons]; tauto, ?_⟩
              simp only [List.append_assoc]
              exact List.Perm.append_left _
                (List.Perm.swap (mkAlertRow u i.id y) (mkAlertRow u i.id x) [])
            · rw [if_neg hoky, if_neg hoky,
                pp_accept u ok i x
                  { s with
                    existingKeys := dedupKey i.id y.name y.source :: s.existingKeys
                    attemptedRows := s.attemptedRows ++ [mkAlertRow u i.id y] }
                  hmx (by show (dedupKey i.id y.name y.source :: s.existingKeys).contains (dedupKey i.id x.name x.source) = _ ; rw [List.contains_cons, hbxy, hcx]; rfl),
                if_pos hokx]
              exact ⟨fun k => by simp only [List.mem_cons]; tauto, List.Perm.refl _⟩
          · rw [if_neg hokx,
              pp_accept u ok i y
                { s with
                  existingKeys := dedupKey i.id x.name x.source :: s.existingKeys
                  attemptedRows := s.attemptedRows ++ [mkAlertRow u i.id x] }
                hmy (by show (dedupKey i.id x.name x.source :: s.existingKeys).contains (dedupKey i.id y.name y.source) = _ ; rw [List.contains_cons, hbyx, hcy]; rfl)]
            by_cases hoky : ok (mkAlertRow u i.id y) = true
            · rw [if_pos hoky, if_pos hoky,
                pp_accept u ok i x
                  { s with
                    existingKeys := dedupKey i.id y.name y.source :: s.existingKeys
                    alertsCreated := s.alertsCreated + 1
                    newAlerts := s.newAlerts ++ [mkEmailAlert i.ingredient_name y]
                    insertedRows := s.insertedRows ++ [mkAlertRow u i.id y]
                    attemptedRows := s.attemptedRows ++ [mkAlertRow u i.id y] }
                  hmx (by show (dedupKey i.id y.name y.source :: s.existingKeys).contains (dedupKey i.id x.name x.source) = _ ; rw [List.contains_cons, hbxy, hcx]; rfl),
                if_neg hokx]
              exact ⟨fun k => by simp only [List.mem_cons]; tauto, List.Perm.refl _⟩
            · rw [if_neg hoky, if_neg hoky,
                pp_accept u ok i x
                  { s with
                    existingKeys := dedupKey i.id y.name y.source :: s.existingKeys
                    attemptedRows := s.attemptedRows ++ [mkAlertRow u i.id y] }
                  hmx (by show (dedupKey i.id y.name y.source :: s.existingKeys).contains (dedupKey i.id x.name x.source) = _ ; rw [List.contains_cons, hbxy, hcx]; rfl),
                if_neg hokx]
              exact ⟨fun k => by simp only [List.mem_cons]; tauto, List.Perm.refl _⟩

lemma pp_commute_block (u : String) (ok : AlertRow → Bool) (i : MonitoredIngredient)
    (y : NormalizedEntry) :
    ∀ (xs : List NormalizedEntry), (∀ x ∈ xs, x.source ≠ y.source) →
    ∀ (s : RunState),
    StEquiv (processPair u ok i y (processEntries u ok i xs s))
      (processEntries u ok i xs (processPair u ok i y s)) := by
  intro xs
  induction xs with
  | nil => intro _ s; exact stEquiv_refl _
  | cons x xs' ih =>
    intro hdisj s
    rw [procE_cons, procE_cons]
    refine stEquiv_trans
      (ih (fun x' hx' => hdisj x' (List.mem_cons_of_mem _ hx')) (processPair u ok i x s)) ?_
    exact procE_congr u ok i xs' (pp_swap u ok i x y (hdisj x (List.mem_cons_self _ _)) s)

lemma procE_swap_blocks (u : String) (ok : AlertRow → Bool) (i : MonitoredIngredient)
    (xs : List NormalizedEntry) :
    ∀ (ys : List NormalizedEntry), (∀ x ∈ xs, ∀ y ∈ ys, x.source ≠ y.source) →
    ∀ (s : RunState),
    StEquiv (processEntries u ok i (xs ++ ys) s) (processEntries u ok i (ys ++ xs) s) := by
  intro ys
  induction ys with
  | nil =>
    intro _ s
    rw [List.append_nil, List.nil_append]
    exact stEquiv_refl _
  | cons y ys' ih =>
    intro hdisj s
    rw [procE_append, List.cons_append, procE_cons, procE_cons]
    refine stEquiv_trans (procE_congr u ok i ys'
      (pp_commute_block u ok i y xs (fun x hx => hdisj x hx y (List.mem_cons_self _ _)) s)) ?_
    rw [← procE_append]
    exact ih (fun x hx y' hy' => hdisj x hx y' (List.mem_cons_of_mem _ hy'))
      (processPair u ok i y s)

lemma procE_blocks_perm (u : String) (ok : AlertRow → Bool) (i : MonitoredIngredient) :
    ∀ {bs1 bs2 : List (List NormalizedEntry)}, bs1.Perm bs2 →
    bs1.Pairwise BlockDisj →
    ∀ {s1 s2 : RunState}, StEquiv s1 s2 →
    StEquiv (processEntries u ok i bs1.flatten s1)
      (processEntries u ok i bs2.flatten s2) := by
  intro bs1 bs2 hp
  induction hp with
  | nil => intro _ s1 s2 h; exact h
  | cons b hp' ih =>
    intro hpw s1 s2 h
    rw [List.flatten_cons, List.flatten_cons, procE_append, procE_append]
    exact ih hpw.of_cons (procE_congr u ok i b h)
  | swap b1 b2 l =>
    intro hpw s1 s2 h
    have hd : BlockDisj b2 b1 := (List.pairwise_cons.mp hpw).1 b1 (List.mem_cons_self _ _)
    rw [List.flatten_cons, List.flatten_cons, List.flatten_cons, List.flatten_cons,
      procE_append, procE_append, procE_append, procE_append]
    refine procE_congr u ok i l.flatten ?_
    refine stEquiv_trans (procE_congr u ok i b1 (procE_congr u ok i b2 h)) ?_
    have hs := procE_swap_blocks u ok i b2 b1 hd s2
    rw [procE_append, procE_append] at hs
    exact hs
  | trans hp1 hp2 ih1 ih2 =>
    intro hpw s1 s2 h
    have hsymm : ∀ {a b : List NormalizedEntry}, BlockDisj a b → BlockDisj b a :=
      fun hab y hy x hx => (hab x hx y hy).symm
    have hpw2 := (hp1.pairwise_iff hsymm).mp hpw
    exact stEquiv_trans (ih1 hpw (stEquiv_refl s1)) (ih2 hpw2 h)

lemma crossRef_blocks_perm (userId : String) (ok : AlertRow → Bool)
    (ings : List MonitoredIngredient) {bs1 bs2 : List (List NormalizedEntry)}
    (hp : bs1.Perm bs2) (hpw : bs1.Pairwise BlockDisj) :
    ∀ {s1 s2 : RunState}, StEquiv s1 s2 →
    StEquiv (crossReference userId ok ings bs1.flatten s1)
      (crossReference userId ok ings bs2.flatten s2) := by
  induction ings with
  | nil => intro s1 s2 h; exact h
  | cons i is ih =>
    intro s1 s2 h
    rw [crossRef_cons, crossRef_cons]
    exact ih (procE_blocks_perm userId ok i hp hpw h)

lemma providerBlock_source (svhc : List SvhcSubstance) (eurlex ansm : List SourceEntry)
    (s : Source) : ∀ e ∈ providerBlock svhc eurlex ansm s, e.source = s := by
  intro e he
  cases s <;> simp [providerBlock] at he <;> obtain ⟨w, hw, rfl⟩ := he <;> rfl

lemma normalizeSources_eq (svhc : List SvhcSubstance) (eurlex ansm : List SourceEntry) :
    normalizeSources svhc eurlex ansm = normalizeInOrder svhc eurlex ansm sourceOrder := by
  simp [normalizeSources, normalizeInOrder, sourceOrder]

lemma processUserGroup_delta (entries : List NormalizedEntry) (env : BatchEnv)
    (acc : BatchAcc) (g : String × List IngredientRow) :
    (processUserGroup entries env acc g).usersChecked
        = acc.usersChecked + (processUserGroup entries env emptyBatchAcc g).usersChecked
    ∧ (processUserGroup entries env acc g).alertsCreated
        = acc.alertsCreated + (processUserGroup entries env emptyBatchAcc g).alertsCreated
    ∧ (processUserGroup entries env acc g).emailsSent
        = acc.emailsSent + (processUserGroup entries env emptyBatchAcc g).emailsSent
    ∧ (processUserGroup entries env acc g).tenantRows
        = acc.tenantRows ++ (processUserGroup entries env emptyBatchAcc g).tenantRows
    ∧ (processUserGroup entries env acc g).emailBatches
        = acc.emailBatches ++ (processUserGroup entries env emptyBatchAcc g).emailBatches := by
  simp only [processUserGroup, emptyBatchAcc]
  split_ifs <;> refine ⟨?_, ?_, ?_, ?_, ?_⟩ <;> simp

lemma processUsersFold_char (entries : List NormalizedEntry) (env : BatchEnv) :
    ∀ (groups : List (String × List IngredientRow)) (acc : BatchAcc),
    (processUsersFold entries env groups acc).usersChecked
        = acc.usersChecked + (groups.map (fun g =>
            (processUserGroup entries env emptyBatchAcc g).usersChecked)).sum
    ∧ (processUsersFold entries env groups acc).alertsCreated
        = acc.alertsCreated + (groups.map (fun g =>
            (processUserGroup entries env emptyBatchAcc g).alertsCreated)).sum
    ∧ (processUsersFold entries env groups acc).emailsSent
        = acc.emailsSent + (groups.map (fun g =>
            (processUserGroup entries env emptyBatchAcc g).emailsSent)).sum
    ∧ (processUsersFold entries env groups acc).tenantRows
        = acc.tenantRows ++ (groups.map (fun g =>
            (processUserGroup entries env emptyBatchAcc g).tenantRows)).flatten
    ∧ (processUsersFold entries env groups acc).emailBatches
        = acc.emailBatches ++ (groups.map (fun g =>
            (processUserGroup entries env emptyBatchAcc g).emailBatches)).flatten := by
  intro groups
  induction groups with
  | nil => intro acc; simp [processUsersFold]
  | cons g gs ih =>
    intro acc
    obtain ⟨du, da, de, dt, db⟩ := processUserGroup_delta entries env acc g
    obtain ⟨iu, ia, ie, it, ib⟩ := ih (processUserGroup entries env acc g)
    simp only [processUsersFold, List.foldl_cons] at iu ia ie it ib ⊢
    refine ⟨?_, ?_, ?_, ?_, ?_⟩
    · rw [iu, du, List.map_cons, List.sum_cons]; omega
    · rw [ia, da, List.map_cons, List.sum_cons]; omega
    · rw [ie, de, List.map_cons, List.sum_cons]; omega
    · rw [it, dt, List.map_cons, List.flatten_cons, List.append_assoc]
    · rw [ib, db, List.map_cons, List.flatten_cons, List.append_assoc]

/-- C9: (1) the multiset of alert rows written by the on-demand run is
invariant under permuting the order in which the three provider blocks are
concatenated by the Normalizer; (2) in the batch variant, the aggregate
counters are unchanged and the per-tenant outcomes (durable rows and
notification batches) are permuted when the tenant groups are processed in
a different order. -/
theorem c9_order_invariance :
    (∀ (userId : String) (insertOk : AlertRow → Bool) (emailOk : Bool)
        (ings : List MonitoredIngredient) (svhc : List SvhcSubstance)
        (eurlex ansm : List SourceEntry) (existing : List ExistingAlert)
        (ord : List Source), ord.Perm sourceOrder →
      ((checkRegulationsPOST userId insertOk emailOk ings
          (normalizeInOrder svhc eurlex ansm ord) existing).insertedRows).Perm
        ((checkRegulationsPOST userId insertOk emailOk ings
          (normalizeSources svhc eurlex ansm) existing).insertedRows))
    ∧ (∀ (entries : List NormalizedEntry) (env : BatchEnv)
        (groups1 groups2 : List (String × List IngredientRow)), groups1.Perm groups2 →
      (processUsersFold entries env groups1 emptyBatchAcc).usersChecked
          = (processUsersFold entries env groups2 emptyBatchAcc).usersChecked
      ∧ (processUsersFold entries env groups1 emptyBatchAcc).alertsCreated
          = (processUsersFold entries env groups2 emptyBatchAcc).alertsCreated
      ∧ (processUsersFold entries env groups1 emptyBatchAcc).emailsSent
          = (processUsersFold entries env groups2 emptyBatchAcc).emailsSent
      ∧ ((processUsersFold entries env groups1 emptyBatchAcc).tenantRows).Perm
          ((processUsersFold entries env groups2 emptyBatchAcc).tenantRows)
      ∧ ((processUsersFold entries env groups1 emptyBatchAcc).emailBatches).Perm
          ((processUsersFold entries env groups2 emptyBatchAcc).emailBatches)) := by
  constructor
  · intro userId insertOk emailOk ings svhc eurlex ansm existing ord hperm
    have hnd : ord.Pairwise (fun a b => a ≠ b) :=
      (hperm.pairwise_iff (fun h => h.symm)).mpr (by decide)
    have hpw : (ord.map (providerBlock svhc eurlex ansm)).Pairwise BlockDisj := by
      refine List.Pairwise.map _ ?_ hnd
      intro a b hab x hx y hy
      rw [providerBlock_source svhc eurlex ansm a x hx,
        providerBlock_source svhc eurlex ansm b y hy]
      exact hab
    have h := crossRef_blocks_perm userId insertOk ings
      (hperm.map (providerBlock svhc eurlex ansm)) hpw
      (stEquiv_refl
        { existingKeys := existing.map existingKey, alertsCreated := 0
          duplicatesSkipped := 0, newAlerts := [], insertedRows := [], attemptedRows := [] })
    simp only [checkRegulationsPOST, normalizeSources_eq, normalizeInOrder]
    exact h.rows
  · intro entries env groups1 groups2 hperm
    obtain ⟨u1, a1, e1, t1, b1⟩ := processUsersFold_char entries env groups1 emptyBatchAcc
    obtain ⟨u2, a2, e2, t2, b2⟩ := processUsersFold_char entries env groups2 emptyBatchAcc
    refine ⟨?_, ?_, ?_, ?_, ?_⟩
    · rw [u1, u2, (hperm.map _).sum_eq]
    · rw [a1, a2, (hperm.map _).sum_eq]
    · rw [e1, e2, (hperm.map _).sum_eq]
    · rw [t1, t2]
      exact List.Perm.append (List.Perm.refl _) (hperm.map _).flatten
    · rw [b1, b2]
      exact List.Perm.append (List.Perm.refl _) (hperm.map _).flatten

/-- Witness for `c9_order_invariance`: a reordered provider concatenation
and reversed tenant groups at concrete inputs. -/
theorem c9_order_invariance_witness :
    (([Source.EUR_LEX, Source.ANSM, Source.ECHA_SVHC] : List Source).Perm sourceOrder
      ∧ ((checkRegulationsPOST "u" (fun _ => true) true
          [{ id := "i1", ingredient_name := "Titanium dioxide", cas_number := none }]
          (normalizeInOrder [fixtureSvhc] [] []
            [Source.EUR_LEX, Source.ANSM, Source.ECHA_SVHC]) []).insertedRows).Perm
        ((checkRegulationsPOST "u" (fun _ => true) true
          [{ id := "i1", ingredient_name := "Titanium dioxide", cas_number := none }]
          (normalizeSources [fixtureSvhc] [] []) []).insertedRows))
    ∧ (fixtureGroupsAB.Perm fixtureGroupsAB.reverse
      ∧ ((processUsersFold [fixtureEntry] fixtureEnvNoThrow fixtureGroupsAB
            emptyBatchAcc).tenantRows).Perm
          ((processUsersFold [fixtureEntry] fixtureEnvNoThrow fixtureGroupsAB.reverse
            emptyBatchAcc).tenantRows)) :=
  ⟨⟨by decide,
      c9_order_invariance.1 "u" (fun _ => true) true
        [{ id := "i1", ingredient_name := "Titanium dioxide", cas_number := none }]
        [fixtureSvhc] [] []
        [] [Source.EUR_LEX, Source.ANSM, Source.ECHA_SVHC] (by decide)⟩,
    ⟨by decide,
      (c9_order_invariance.2 [fixtureEntry] fixtureEnvNoThrow fixtureGroupsAB
        fixtureGroupsAB.reverse (by decide)).2.2.2.1⟩⟩

end RegAlert
